import Mathlib

/-! ton-wallet-manager: the balance checker and the batch sender

A shallow embedding of the two command-line programs of the repository
(`balance-check.go` and `main.go`) and the properties of their own logic: the
two file readers, the per-address loop of the balance checker and the
sequential script of the sender.

Everything the programs delegate to the TON client library (lite-server
connections, wallet derivation, address and amount parsing, account queries,
the batch send) is a field of `TonLib`, an arbitrary implementation over an
arbitrary chain state; nothing is assumed about it.

Go strings are embedded as `String`; `strings.TrimSpace` works on runes and
`strings.Split(s, ",")` on the one-byte separator `,`, which in UTF-8 text
occurs only as the character `,`, so both are embedded on characters.
-/

namespace TonWalletManager

/-! ## Go standard library functions used by the readers -/

/-- Go `unicode.IsSpace`: the Latin-1 spaces `\t \n \v \f \r`, space, U+0085,
U+00A0, and beyond Latin-1 the code points of the `White_Space` property. -/
def isSpace (c : Char) : Bool :=
  let r := c.toNat
  if r ≤ 0xFF then
    r = 0x09 || r = 0x0A || r = 0x0B || r = 0x0C || r = 0x0D || r = 0x20 || r = 0x85 || r = 0xA0
  else
    r = 0x1680 || (0x2000 ≤ r && r ≤ 0x200A) || r = 0x2028 || r = 0x2029 || r = 0x202F
      || r = 0x205F || r = 0x3000

/-- Characters of `strings.TrimSpace`: `TrimRightFunc(TrimLeftFunc(s, IsSpace), IsSpace)`. -/
def trimSpaceChars (cs : List Char) : List Char :=
  (cs.dropWhile isSpace).rdropWhile isSpace

/-- Go `strings.TrimSpace`. -/
def TrimSpace (s : String) : String :=
  ⟨trimSpaceChars s.data⟩

/-- Characters of `strings.Split` for a one-character separator: the pieces
between the occurrences of `sep`, `n + 1` pieces for `n` occurrences. -/
def splitChars (sep : Char) : List Char → List (List Char)
  | [] => [[]]
  | c :: cs =>
    if c = sep then [] :: splitChars sep cs
    else
      match splitChars sep cs with
      | [] => [[c]]
      | p :: ps => (c :: p) :: ps

/-- Go `strings.Split(s, sep)` for a separator of one character. -/
def Split (s : String) (sep : Char) : List String :=
  (splitChars sep s.data).map String.mk

/-- What `os.Open` followed by a `bufio.Scanner` loop delivers for a file:
the open error, or the lines the scanner yielded before it stopped together
with `scanner.Err()`. -/
inductive FileRead where
  | openError (err : String)
  | scanned (lines : List String) (scanErr : Option String)
  deriving DecidableEq, Repr

/-! ## A Go `map[string]string` -/

/-- A Go `map[string]string`: its entries, at most one per key. -/
abbrev GoMap := List (String × String)

/-- The assignment `m[k] = v`: replaces the value of an existing key, adds a new
entry otherwise. -/
def GoMap.set : GoMap → String → String → GoMap
  | [], k, v => [(k, v)]
  | (k', v') :: rest, k, v =>
    if k' = k then (k, v) :: rest else (k', v') :: GoMap.set rest k v

/-- The lookup `m[k]`. -/
def GoMap.get? : GoMap → String → Option String
  | [], _ => none
  | (k', v') :: rest, k => if k' = k then some v' else GoMap.get? rest k

/-! ## The file readers -/

/-- `readAddressFromFile` of `balance-check.go`: the trimmed lines, or a nil list
and the open or scan error. -/
def readAddressFromFile : FileRead → List String × Option String
  | .openError err => ([], some err)
  | .scanned lines scanErr =>
    let addresses := lines.foldl (fun addresses text => addresses ++ [TrimSpace text]) []
    match scanErr with
    | some err => ([], some err)
    | none => (addresses, none)

/-- `readPhraseFromFile` of `main.go` takes `strings.Fields` of the first line;
the fields of a line: its maximal runs of non-space characters. -/
def fieldsChars : List Char → List Char → List (List Char)
  | [], cur => if cur = [] then [] else [cur]
  | c :: cs, cur =>
    if isSpace c then (if cur = [] then fieldsChars cs [] else cur :: fieldsChars cs [])
    else fieldsChars cs (cur ++ [c])

/-- Go `strings.Fields`. -/
def Fields (s : String) : List String :=
  (fieldsChars s.data []).map String.mk

/-- `readPhraseFromFile` of `main.go`: the fields of the first line; a file
without a line gives the scan error if there is one, and `nil, nil` otherwise. -/
def readPhraseFromFile : FileRead → List String × Option String
  | .openError err => ([], some err)
  | .scanned (first :: _) _ => (Fields first, none)
  | .scanned [] (some err) => ([], some err)
  | .scanned [] none => ([], none)

/-- The loop body of `readReceiversFromFile`: a line with exactly two parts sets
the entry of its trimmed first part to its trimmed second part. -/
def addReceiverLine (receivers : GoMap) (text : String) : GoMap :=
  match Split text ',' with
  | [p0, p1] => receivers.set (TrimSpace p0) (TrimSpace p1)
  | _ => receivers

/-- `readReceiversFromFile` of `main.go`. -/
def readReceiversFromFile : FileRead → GoMap × Option String
  | .openError err => ([], some err)
  | .scanned lines scanErr =>
    let receivers := lines.foldl addReceiverLine []
    match scanErr with
    | some err => ([], some err)
    | none => (receivers, none)

/-! ## The TON client library, as the programs see it -/

/-- The part of `wallet.Message` and its `tlb.InternalMessage` the sender fills in. -/
structure Message (A : Type) where
  Mode : Nat
  IHRDisabled : Bool
  Bounce : Bool
  DstAddr : A
  Amount : Int
  deriving DecidableEq, Repr

/-- The `tlb.AccountState` field read by the balance checker. -/
structure AccountState where
  Balance : Int
  deriving DecidableEq, Repr

/-- The `tlb.Account` field read by the balance checker; `State` may be nil. -/
structure Account where
  State : Option AccountState
  deriving DecidableEq, Repr

/-- The calls into the TON client library and the file system, over a chain
state `σ`, parsed addresses `A`, wallets `W` and block identifiers `B`. Calls
that go to the network take the state and return the next one; a Go error is a
`String`. `rangeOrder` is the order in which a `range` over a Go map visits its
entries, which Go leaves unspecified: some arrangement of the entries. -/
structure TonLib (σ A W B : Type) where
  AddConnectionsFromConfigUrl : String → σ → Option String × σ
  FromSeed : List String → Except String W
  WalletAddress : W → A
  CurrentMasterchainInfo : σ → Except String B × σ
  GetBalance : W → B → σ → Except String Int × σ
  SendManyWaitTxHash : W → List (Message A) → σ → Except String (List Nat) × σ
  ParseAddr : String → Except String A
  IsBounceable : A → Bool
  FromTON : String → Except String Int
  GetAccount : B → A → σ → Except String (Option Account) × σ
  file : String → FileRead
  rangeOrder : GoMap → GoMap
  rangeOrder_perm : ∀ m, (rangeOrder m).Perm m

/-- The value `wallet.PayGasSeparately` of the library. -/
def PayGasSeparately : Nat := 1

/-- The value `wallet.IgnoreErrors` of the library. -/
def IgnoreErrors : Nat := 2

/-- Go `(*big.Int).Uint64`: the low 64 bits of the absolute value (the value
itself when it is representable as a `uint64`). -/
def Uint64 (x : Int) : Nat :=
  x.natAbs % 2 ^ 64

/-! ## What a run does: calls and log entries -/

/-- A value written to the log: the library's `String()` of an address or of an
amount, a base64 encoding of the transaction hash, plain text. -/
inductive Value (A : Type) where
  | text (s : String)
  | addrString (a : A)
  | coinsString (c : Int)
  | base64Std (bytes : List Nat)
  | urlPrefixed (pre : String) (bytes : List Nat)
  deriving DecidableEq, Repr

/-- A field of a zerolog entry: `.Err(err)` or `.Str(key, value)`. -/
inductive Field (A : Type) where
  | err (e : String)
  | str (key : String) (value : Value A)
  deriving DecidableEq, Repr

/-- The zerolog levels the programs use. -/
inductive Level where
  | info | warn | error | fatal
  deriving DecidableEq, Repr

/-- One zerolog entry: level, fields, the message and the arguments of `Msgf`. -/
structure Entry (A : Type) where
  level : Level
  fields : List (Field A)
  msg : String
  args : List (Value A)
  deriving DecidableEq, Repr

/-- The calls whose order the claims are about. -/
inductive Call (A B : Type) where
  | AddConnectionsFromConfigUrl (url : String)
  | readPhraseFromFile (filename : String)
  | FromSeed (words : List String)
  | CurrentMasterchainInfo
  | GetBalance (block : B)
  | readReceiversFromFile (filename : String)
  | SendManyWaitTxHash (messages : List (Message A))
  deriving DecidableEq, Repr

/-- An observable step of the sender: a call, a log entry, a line on stdout. -/
inductive Event (A B : Type) where
  | call (c : Call A B)
  | log (e : Entry A)
  | print (text : String)
  deriving DecidableEq, Repr

/-- How a process ends: `main` returns, `log.Fatal` exits, or a `Must...`
function panics. -/
inductive Outcome where
  | returned
  | fatal
  | panicked (err : String)
  deriving DecidableEq, Repr

/-- A run of the sender: its events in order, how it ended, the chain state left. -/
structure Run (σ A B : Type) where
  trace : List (Event A B)
  outcome : Outcome
  state : σ

/-- The calls of a trace, in order. -/
def callsOf {A B : Type} (t : List (Event A B)) : List (Call A B) :=
  t.filterMap fun e => match e with
    | .call c => some c
    | _ => none

/-- The log entries of a trace, in order. -/
def logsOf {A B : Type} (t : List (Event A B)) : List (Entry A) :=
  t.filterMap fun e => match e with
    | .log e => some e
    | _ => none

/-- The batches of messages handed to `SendManyWaitTxHash` in a trace, in order. -/
def batchesOf {A B : Type} (t : List (Event A B)) : List (List (Message A)) :=
  t.filterMap fun e => match e with
    | .call (.SendManyWaitTxHash messages) => some messages
    | _ => none

/-! ## The balance checker (`balance-check.go`) -/

namespace BalanceCheck

/-- The body of the loop of `MassBalanceCheck` for one address line: the entry it
logs (every path logs exactly one) and the chain state after it. -/
def checkAddress {σ A W B : Type} (L : TonLib σ A W B) (block : B) (addr : String) (s : σ) :
    Entry A × σ :=
  match L.ParseAddr addr with
  | .error err =>
    (⟨.error, [.err err, .str "address" (.text addr)], "Failed to parse address", []⟩, s)
  | .ok parsedAddr =>
    match L.GetAccount block parsedAddr s with
    | (.error err, s1) =>
      (⟨.error, [.err err, .str "address" (.text addr)], "Failed to get account", []⟩, s1)
    | (.ok none, s1) =>
      (⟨.error, [.str "address" (.text addr)], "Has no balance", []⟩, s1)
    | (.ok (some account), s1) =>
      match account.State with
      | none => (⟨.error, [.str "address" (.text addr)], "Has no balance", []⟩, s1)
      | some state =>
        (⟨.info, [], "address = %s, balance = %s", [.text addr, .coinsString state.Balance]⟩, s1)

/-- The loop `for _, addr := range addresses` of `MassBalanceCheck`. -/
def checkAddresses {σ A W B : Type} (L : TonLib σ A W B) (block : B) :
    List String → σ → List (Entry A) × σ
  | [], s => ([], s)
  | addr :: rest, s =>
    let r := checkAddress L block addr s
    let rs := checkAddresses L block rest r.2
    (r.1 :: rs.1, rs.2)

/-- The result of `MassBalanceCheck`: what it logged, the error it returned, the
chain state left. -/
structure Result (σ A : Type) where
  log : List (Entry A)
  err : Option String
  state : σ

/-- `MassBalanceCheck` of `balance-check.go`. -/
def MassBalanceCheck {σ A W B : Type} (L : TonLib σ A W B) (block : B) (s : σ) : Result σ A :=
  match readAddressFromFile (L.file "address.txt") with
  | (_, some err) => ⟨[], some err, s⟩
  | (addresses, none) =>
    let r := checkAddresses L block addresses s
    ⟨⟨.info, [], "Checking balances...", []⟩ :: r.1, none, r.2⟩

end BalanceCheck

/-! ## The sender (`main.go`) -/

namespace Sender

/-- The entry `log.Fatal().Err(err).Msg(msg)`. -/
def fatalEntry {A B : Type} (err msg : String) : Event A B :=
  .log ⟨.fatal, [.err err], msg, []⟩

/-- The loop `for addrStr, amtStr := range receivers` of `main`, over the entries
in the order the range visits them: `MustParseAddr` and `MustFromTON` panic with
the parse error, otherwise the message is appended. -/
def buildMessages {σ A W B : Type} (L : TonLib σ A W B) :
    List (String × String) → List (Message A) → Except String (List (Message A))
  | [], messages => .ok messages
  | (addrStr, amtStr) :: rest, messages =>
    match L.ParseAddr addrStr with
    | .error err => .error err
    | .ok addr =>
      match L.FromTON amtStr with
      | .error err => .error err
      | .ok amount =>
        buildMessages L rest (messages ++ [{
          Mode := PayGasSeparately + IgnoreErrors
          IHRDisabled := true
          Bounce := L.IsBounceable addr
          DstAddr := addr
          Amount := amount }])

/-- The config URL of the sender. -/
def configUrl : String := "https://ton.org/global.config.json"

/-- The line `readReceiversFromFile` prints before it opens the file. -/
def note : String := "Note: This bot only sends to 4 addresses at the same time."

/-- The per-transfer entry logged after the send. -/
def transferEntry {A B : Type} (msg : Message A) : Event A B :=
  .log ⟨.info, [.str "address" (.addrString msg.DstAddr), .str "amount" (.coinsString msg.Amount)],
    "Transaction sent", []⟩

/-- `main` of `main.go`, from the chain state `s0`. -/
def main {σ A W B : Type} (L : TonLib σ A W B) (s0 : σ) : Run σ A B :=
  let t1 : List (Event A B) := [.call (.AddConnectionsFromConfigUrl configUrl)]
  match L.AddConnectionsFromConfigUrl configUrl s0 with
  | (some err, s1) => ⟨t1 ++ [fatalEntry err "Failed to connect to mainnet"], .fatal, s1⟩
  | (none, s1) =>
  let t2 := t1 ++ [.call (.readPhraseFromFile "phrase.txt")]
  match readPhraseFromFile (L.file "phrase.txt") with
  | (_, some err) => ⟨t2 ++ [fatalEntry err "Failed to read seed phrase from file"], .fatal, s1⟩
  | (words, none) =>
  let t3 := t2 ++ [.call (.FromSeed words)]
  match L.FromSeed words with
  | .error err => ⟨t3 ++ [fatalEntry err "Failed to initialize wallet"], .fatal, s1⟩
  | .ok w =>
  let t4 := t3 ++ [.log ⟨.info, [.str "address" (.addrString (L.WalletAddress w))],
    "Wallet address", []⟩, .call .CurrentMasterchainInfo]
  match L.CurrentMasterchainInfo s1 with
  | (.error err, s2) =>
    ⟨t4 ++ [fatalEntry err "Failed to get current masterchain info"], .fatal, s2⟩
  | (.ok block, s2) =>
  let t5 := t4 ++ [.call (.GetBalance block)]
  match L.GetBalance w block s2 with
  | (.error err, s3) => ⟨t5 ++ [fatalEntry err "Failed to get balance"], .fatal, s3⟩
  | (.ok balance, s3) =>
  let t6 := t5 ++ [.log ⟨.info, [.str "balance" (.coinsString balance)],
    "Total balance of sender's wallet", []⟩, .call (.readReceiversFromFile "receiver.txt"),
    .print note]
  match readReceiversFromFile (L.file "receiver.txt") with
  | (_, some err) => ⟨t6 ++ [fatalEntry err "Failed to read receivers from file"], .fatal, s3⟩
  | (receivers, none) =>
  if Uint64 balance ≥ 3000000 then
    match buildMessages L (L.rangeOrder receivers) [] with
    | .error err => ⟨t6, .panicked err, s3⟩
    | .ok messages =>
    let t7 := t6 ++ [.log ⟨.info, [], "Sending transaction and waiting for confirmation...", []⟩,
      .call (.SendManyWaitTxHash messages)]
    match L.SendManyWaitTxHash w messages s3 with
    | (.error err, s4) => ⟨t7 ++ [fatalEntry err "Transfer failed"], .fatal, s4⟩
    | (.ok txHash, s4) =>
    let t8 := t7 ++ [.log ⟨.info, [.str "hash" (.base64Std txHash),
        .str "explorer_link" (.urlPrefixed "https://tonscan.org/tx/" txHash)],
        "Transaction sent", []⟩]
      ++ messages.map transferEntry ++ [.call (.GetBalance block)]
    match L.GetBalance w block s4 with
    | (.error err, s5) =>
      ⟨t8 ++ [.log ⟨.error, [.err err], "Failed to get new balance after transactions", []⟩],
        .returned, s5⟩
    | (.ok newBalance, s5) =>
      ⟨t8 ++ [.log ⟨.info, [.str "new_balance" (.coinsString newBalance)],
        "New balance of sender's wallet after transactions", []⟩], .returned, s5⟩
  else
    ⟨t6 ++ [.log ⟨.warn, [.str "balance" (.coinsString balance)], "Not enough balance", []⟩],
      .returned, s3⟩

/-- The six setup steps of `main` succeed from the chain state `s0`: the
connections are added, `phrase.txt` gives `words`, the wallet `w` is built from
them, the masterchain info gives `block`, the balance read at `block` is
`balance`, leaving the chain state `s3`, and `receiver.txt` gives `receivers`. -/
def SetupOk {σ A W B : Type} (L : TonLib σ A W B) (s0 : σ) (words : List String) (w : W)
    (block : B) (balance : Int) (receivers : GoMap) (s3 : σ) : Prop :=
  ∃ s1 s2, L.AddConnectionsFromConfigUrl configUrl s0 = (none, s1)
    ∧ readPhraseFromFile (L.file "phrase.txt") = (words, none)
    ∧ L.FromSeed words = .ok w
    ∧ L.CurrentMasterchainInfo s1 = (.ok block, s2)
    ∧ L.GetBalance w block s2 = (.ok balance, s3)
    ∧ readReceiversFromFile (L.file "receiver.txt") = (receivers, none)

/-- The events of `main` up to the return of `readReceiversFromFile`, when every
setup step succeeds. -/
def setupTrace {σ A W B : Type} (L : TonLib σ A W B) (words : List String) (w : W) (block : B)
    (balance : Int) : List (Event A B) :=
  [.call (.AddConnectionsFromConfigUrl configUrl),
   .call (.readPhraseFromFile "phrase.txt"),
   .call (.FromSeed words),
   .log ⟨.info, [.str "address" (.addrString (L.WalletAddress w))], "Wallet address", []⟩,
   .call .CurrentMasterchainInfo,
   .call (.GetBalance block),
   .log ⟨.info, [.str "balance" (.coinsString balance)], "Total balance of sender's wallet", []⟩,
   .call (.readReceiversFromFile "receiver.txt"),
   .print note]

/-- The events of a successful send: the announcement, the call, the hash entry
and one entry per message, then the second balance read. -/
def sendTrace {A B : Type} (messages : List (Message A)) (txHash : List Nat) (block : B) :
    List (Event A B) :=
  [.log ⟨.info, [], "Sending transaction and waiting for confirmation...", []⟩,
   .call (.SendManyWaitTxHash messages),
   .log ⟨.info, [.str "hash" (.base64Std txHash),
      .str "explorer_link" (.urlPrefixed "https://tonscan.org/tx/" txHash)],
      "Transaction sent", []⟩]
    ++ messages.map transferEntry ++ [.call (.GetBalance block)]

/-- The message `main` builds for a parsed address and a parsed amount. -/
def messageFor {σ A W B : Type} (L : TonLib σ A W B) (addr : A) (amount : Int) : Message A :=
  { Mode := PayGasSeparately + IgnoreErrors
    IHRDisabled := true
    Bounce := L.IsBounceable addr
    DstAddr := addr
    Amount := amount }

/-- The message `m` is the one built for the map entry `e`. -/
def BuiltFrom {σ A W B : Type} (L : TonLib σ A W B) (e : String × String) (m : Message A) :
    Prop :=
  ∃ addr amount, L.ParseAddr e.1 = .ok addr ∧ L.FromTON e.2 = .ok amount
    ∧ m = messageFor L addr amount

/-- Both texts of the map entry `e` parse. -/
def Parses {σ A W B : Type} (L : TonLib σ A W B) (e : String × String) : Prop :=
  (∃ addr, L.ParseAddr e.1 = .ok addr) ∧ (∃ amount, L.FromTON e.2 = .ok amount)

/-- A run that stopped at a failed setup step: it ended in `log.Fatal`, its
calls are exactly `calls`, its last event is the fatal entry for `err`, and no
batch was handed to `SendManyWaitTxHash`. -/
def FailedAt {σ A B : Type} (r : Run σ A B) (calls : List (Call A B)) (err msg : String) :
    Prop :=
  r.outcome = .fatal ∧ callsOf r.trace = calls
    ∧ r.trace.getLast? = some (fatalEntry err msg)
    ∧ batchesOf r.trace = []

end Sender

/-! ## A sample world

A small implementation of the library over a chain that records the wallet's
balance at every block, used to run the programs on concrete inputs. -/

namespace Sample

/-- The wallet's balance at each block of the sample chain, oldest first: the
block identifier is the index. -/
structure Chain where
  balances : List Int
  deriving DecidableEq, Repr

/-- The value of a string of decimal digits. -/
def digitsValue : List Char → Nat → Option Nat
  | [], acc => some acc
  | c :: cs, acc => if c.isDigit then digitsValue cs (acc * 10 + (c.toNat - 48)) else none

/-- What is fixed in a sample run: the files, the accounts the lite-server
knows, and an error for each call that is to fail. -/
structure Scenario where
  files : String → FileRead
  accounts : String → Except String (Option Account)
  connectErr : Option String
  seedErr : Option String
  infoErr : Option String
  balanceErr : Option String
  sendErr : Option String

/-- The sample library: an address is a text starting with `E` (bounceable) or
`U`; an amount is a whole number of TON in decimal digits; a send appends a
block in which the balance is lowered by the amounts sent; the balance of a
block never changes. -/
def lib (sc : Scenario) : TonLib Chain String Unit Nat where
  AddConnectionsFromConfigUrl := fun _ s => (sc.connectErr, s)
  FromSeed := fun _ => match sc.seedErr with
    | some e => .error e
    | none => .ok ()
  WalletAddress := fun _ => "EQwallet"
  CurrentMasterchainInfo := fun s => match sc.infoErr with
    | some e => (.error e, s)
    | none => (.ok (s.balances.length - 1), s)
  GetBalance := fun _ block s => match sc.balanceErr with
    | some e => (.error e, s)
    | none => match s.balances.get? block with
      | some b => (.ok b, s)
      | none => (.error "unknown block", s)
  SendManyWaitTxHash := fun _ messages s => match sc.sendErr with
    | some e => (.error e, s)
    | none =>
      (.ok [messages.length],
        ⟨s.balances ++ [s.balances.getLastD 0 - (messages.map (·.Amount)).sum]⟩)
  ParseAddr := fun a => match a.data with
    | 'E' :: _ => .ok a
    | 'U' :: _ => .ok a
    | _ => .error "invalid address"
  IsBounceable := fun a => a.data.head? = some 'E'
  FromTON := fun a => match a.data with
    | [] => .error "invalid string"
    | c :: cs => match digitsValue (c :: cs) 0 with
      | some n => .ok (n * 1000000000)
      | none => .error "invalid string"
  GetAccount := fun _ a s => (sc.accounts a, s)
  file := sc.files
  rangeOrder := fun m => m
  rangeOrder_perm := fun m => List.Perm.refl m

/-- A scenario in which every call succeeds, with the given `receiver.txt` and
`address.txt` lines. -/
def scenario (receivers addresses : List String) : Scenario where
  files := fun name =>
    if name = "phrase.txt" then .scanned ["abandon ability able"] none
    else if name = "receiver.txt" then .scanned receivers none
    else if name = "address.txt" then .scanned addresses none
    else .openError "no such file"
  accounts := fun a =>
    if a = "Eone" then .ok (some ⟨some ⟨7⟩⟩)
    else if a = "Enil" then .ok none
    else if a = "Enostate" then .ok (some ⟨none⟩)
    else .error "timeout"
  connectErr := none
  seedErr := none
  infoErr := none
  balanceErr := none
  sendErr := none

/-- The all-succeeding scenario with one setup step made to fail: 1 the
connection, 2 `phrase.txt`, 3 the wallet, 4 the masterchain info, 5 the balance,
6 `receiver.txt` (which stops with a scan error after its first line). -/
def failing (step : Nat) : Scenario :=
  let sc := scenario ["Ea,1"] []
  { sc with
    files := fun name =>
      if step = 2 ∧ name = "phrase.txt" then .openError "no such file"
      else if step = 6 ∧ name = "receiver.txt" then .scanned ["Ea,1"] (some "token too long")
      else sc.files name
    connectErr := if step = 1 then some "no connection" else none
    seedErr := if step = 3 then some "bad seed" else none
    infoErr := if step = 4 then some "timeout" else none
    balanceErr := if step = 5 then some "timeout" else none }

end Sample

example : Split "a,b" ',' = ["a", "b"] := by decide
example : Split "" ',' = [""] := by decide
example : Split "a,b,c" ',' = ["a", "b", "c"] := by decide
example : TrimSpace "  a b \t" = "a b" := by decide
example : readReceiversFromFile (.scanned ["x , 1", "bad", "y,2", "x,3", "a,b,c"] none)
    = ([("x", "3"), ("y", "2")], none) := by decide
example : readAddressFromFile (.scanned [" a ", "", "b"] none) = (["a", "", "b"], none) := by decide
example : Fields "  a  b c " = ["a", "b", "c"] := by decide

/-! ## Lemmas on the readers -/

theorem foldl_snoc_eq_map {α β : Type} (g : α → β) (l : List α) (acc : List β) :
    l.foldl (fun acc t => acc ++ [g t]) acc = acc ++ l.map g := by
  induction l generalizing acc with
  | nil => simp
  | cons a l ih => simp [ih]

theorem trimSpaceChars_head (cs : List Char) (c : Char)
    (h : (trimSpaceChars cs).head? = some c) : isSpace c = false := by
  unfold trimSpaceChars at h
  have hne : (cs.dropWhile isSpace).rdropWhile isSpace ≠ [] := by
    intro h0
    rw [h0] at h
    simp at h
  have hpre := List.rdropWhile_prefix isSpace (l := cs.dropWhile isSpace)
  obtain ⟨t, ht⟩ := hpre
  cases hr : (cs.dropWhile isSpace).rdropWhile isSpace with
  | nil => exact absurd hr hne
  | cons a r =>
    rw [hr] at h ht
    simp at h
    subst h
    have hd := List.head?_dropWhile_not isSpace cs
    rw [← ht] at hd
    simpa using hd

theorem trimSpaceChars_getLast (cs : List Char) (c : Char)
    (h : (trimSpaceChars cs).getLast? = some c) : isSpace c = false := by
  unfold trimSpaceChars at h
  have hne : (cs.dropWhile isSpace).rdropWhile isSpace ≠ [] := by
    intro h0
    rw [h0] at h
    simp at h
  have hl := List.rdropWhile_last_not isSpace (cs.dropWhile isSpace) hne
  rw [List.getLast?_eq_getLast _ hne] at h
  simp at h
  rw [h] at hl
  simpa using hl

theorem trimSpaceChars_all_space (cs : List Char) (h : ∀ c ∈ cs, isSpace c = true) :
    trimSpaceChars cs = [] := by
  unfold trimSpaceChars
  have : cs.dropWhile isSpace = [] := List.dropWhile_eq_nil_iff.mpr h
  simp [this]

theorem rdropWhile_append_rtakeWhile_eq {α : Type} (p : α → Bool) (l : List α) :
    l.rdropWhile p ++ l.rtakeWhile p = l := by
  unfold List.rdropWhile List.rtakeWhile
  rw [← List.reverse_append, List.takeWhile_append_dropWhile, List.reverse_reverse]

theorem trimSpaceChars_decomp (cs : List Char) :
    ∃ pre post, cs = pre ++ trimSpaceChars cs ++ post
      ∧ (∀ c ∈ pre, isSpace c = true) ∧ (∀ c ∈ post, isSpace c = true) := by
  refine ⟨cs.takeWhile isSpace, (cs.dropWhile isSpace).rtakeWhile isSpace, ?_, ?_, ?_⟩
  · unfold trimSpaceChars
    rw [List.append_assoc, rdropWhile_append_rtakeWhile_eq, List.takeWhile_append_dropWhile]
  · intro c hc
    exact List.mem_takeWhile_imp hc
  · intro c hc
    unfold List.rtakeWhile at hc
    rw [List.mem_reverse] at hc
    exact List.mem_takeWhile_imp hc

theorem splitChars_length (sep : Char) (cs : List Char) :
    (splitChars sep cs).length = cs.count sep + 1 := by
  induction cs with
  | nil => simp [splitChars]
  | cons c cs ih =>
    unfold splitChars
    by_cases hc : c = sep
    · simp [hc, ih]
    · have hc2 : ¬ (c == sep) = true := by simpa using hc
      cases hs : splitChars sep cs with
      | nil => rw [hs] at ih; simp at ih
      | cons q qs =>
        rw [hs] at ih
        simp only [List.length_cons] at ih
        simp [hc, List.count_cons, hc2]
        omega

theorem Split_length (text : String) (sep : Char) :
    (Split text sep).length = text.data.count sep + 1 := by
  simp [Split, splitChars_length]

theorem Split_two_iff (text : String) :
    (∃ p0 p1, Split text ',' = [p0, p1]) ↔ text.data.count ',' = 1 := by
  have hl := Split_length text ','
  constructor
  · rintro ⟨p0, p1, h⟩
    rw [h] at hl
    simp at hl
    omega
  · intro h
    rw [h] at hl
    match hs : Split text ',' with
    | [] => rw [hs] at hl; simp at hl
    | [_] => rw [hs] at hl; simp at hl
    | [p0, p1] => exact ⟨p0, p1, rfl⟩
    | _ :: _ :: _ :: _ => rw [hs] at hl; simp at hl

theorem splitChars_ne_nil (sep : Char) (cs : List Char) : splitChars sep cs ≠ [] := by
  intro h
  have := splitChars_length sep cs
  rw [h] at this
  simp at this

theorem splitChars_one (sep : Char) (cs b : List Char) (h : splitChars sep cs = [b]) :
    cs = b ∧ sep ∉ b := by
  induction cs generalizing b with
  | nil =>
    simp only [splitChars, List.cons.injEq, and_true] at h
    subst h
    simp
  | cons c cs ih =>
    unfold splitChars at h
    by_cases hc : c = sep
    · simp only [hc, if_true, List.cons.injEq] at h
      exact absurd h.2 (splitChars_ne_nil sep cs)
    · simp only [hc, if_false] at h
      cases hs : splitChars sep cs with
      | nil => exact absurd hs (splitChars_ne_nil sep cs)
      | cons q qs =>
        rw [hs] at h
        simp only [List.cons.injEq] at h
        obtain ⟨hb, hq⟩ := h
        subst hq
        obtain ⟨h1, h2⟩ := ih q hs
        subst hb
        refine ⟨by rw [h1], ?_⟩
        intro hmem
        rcases List.mem_cons.mp hmem with h3 | h3
        · exact hc h3.symm
        · exact h2 h3

theorem splitChars_two (sep : Char) (cs a b : List Char) (h : splitChars sep cs = [a, b]) :
    cs = a ++ sep :: b ∧ sep ∉ a ∧ sep ∉ b := by
  induction cs generalizing a with
  | nil => simp [splitChars] at h
  | cons c cs ih =>
    unfold splitChars at h
    by_cases hc : c = sep
    · simp only [hc, if_true, List.cons.injEq] at h
      obtain ⟨ha, hb⟩ := h
      obtain ⟨h1, h2⟩ := splitChars_one sep cs b hb
      subst ha
      exact ⟨by simp [hc, h1], by simp, h2⟩
    · simp only [hc, if_false] at h
      cases hs : splitChars sep cs with
      | nil => exact absurd hs (splitChars_ne_nil sep cs)
      | cons q qs =>
        rw [hs] at h
        simp only [List.cons.injEq] at h
        obtain ⟨ha, hq⟩ := h
        subst hq
        obtain ⟨h1, h2, h3⟩ := ih q hs
        subst ha
        refine ⟨by rw [h1]; simp, ?_, h3⟩
        intro hmem
        rcases List.mem_cons.mp hmem with h4 | h4
        · exact hc h4.symm
        · exact h2 h4

theorem Split_two_parts (text p0 p1 : String) (h : Split text ',' = [p0, p1]) :
    text.data = p0.data ++ ',' :: p1.data ∧ ',' ∉ p0.data ∧ ',' ∉ p1.data := by
  unfold Split at h
  match hs : splitChars ',' text.data, h with
  | [a, b], h =>
    simp only [List.map_cons, List.map_nil, List.cons.injEq, and_true] at h
    obtain ⟨ha, hb⟩ := h
    subst ha
    subst hb
    exact splitChars_two ',' text.data a b hs

theorem addReceiverLine_of_two (m : GoMap) (text p0 p1 : String)
    (h : Split text ',' = [p0, p1]) :
    addReceiverLine m text = m.set (TrimSpace p0) (TrimSpace p1) := by
  simp [addReceiverLine, h]

theorem addReceiverLine_cases (m : GoMap) (text : String) :
    (∃ p0 p1, Split text ',' = [p0, p1]
        ∧ addReceiverLine m text = m.set (TrimSpace p0) (TrimSpace p1))
      ∨ ((¬ ∃ p0 p1, Split text ',' = [p0, p1]) ∧ addReceiverLine m text = m) := by
  unfold addReceiverLine
  split
  · next p0 p1 h => exact Or.inl ⟨p0, p1, h, rfl⟩
  · next hne =>
    refine Or.inr ⟨?_, rfl⟩
    rintro ⟨p0, p1, h⟩
    exact hne p0 p1 h

/-! ## Lemmas on the map -/

theorem GoMap.get?_set (m : GoMap) (k v k' : String) :
    (m.set k v).get? k' = if k = k' then some v else m.get? k' := by
  induction m with
  | nil => simp [GoMap.set, GoMap.get?]
  | cons e rest ih =>
    obtain ⟨a, b⟩ := e
    unfold GoMap.set
    by_cases h : a = k
    · subst h
      simp only [if_true, GoMap.get?]
      split <;> rfl
    · simp only [h, if_false, GoMap.get?, ih]
      by_cases h2 : a = k'
      · subst h2
        have : ¬ k = a := fun hh => h hh.symm
        simp [this]
      · simp [h2]

theorem GoMap.keys_set (m : GoMap) (k v : String) :
    (m.set k v).map Prod.fst
      = if k ∈ m.map Prod.fst then m.map Prod.fst else m.map Prod.fst ++ [k] := by
  induction m with
  | nil => simp [GoMap.set]
  | cons e rest ih =>
    obtain ⟨a, b⟩ := e
    unfold GoMap.set
    by_cases h : a = k
    · subst h
      simp
    · have h' : ¬ k = a := fun hh => h hh.symm
      simp only [h, if_false, List.map_cons, ih, List.mem_cons, h', false_or]
      split <;> simp

theorem GoMap.nodup_set (m : GoMap) (k v : String) (h : (m.map Prod.fst).Nodup) :
    ((m.set k v).map Prod.fst).Nodup := by
  rw [GoMap.keys_set]
  split
  · exact h
  · next hk =>
    rw [List.nodup_append]
    refine ⟨h, List.nodup_singleton k, ?_⟩
    intro a ha hb
    simp at hb
    subst hb
    exact hk ha

theorem GoMap.length_set_le (m : GoMap) (k v : String) :
    (m.set k v).length ≤ m.length + 1 := by
  have h := congrArg List.length (GoMap.keys_set m k v)
  simp only [List.length_map] at h
  rw [h]
  split <;> simp

theorem GoMap.mem_set (m : GoMap) (k v : String) (e : String × String)
    (h : e ∈ m.set k v) : e ∈ m ∨ e = (k, v) := by
  induction m with
  | nil => simpa [GoMap.set] using h
  | cons x rest ih =>
    obtain ⟨a, b⟩ := x
    unfold GoMap.set at h
    by_cases hk : a = k
    · simp only [hk, if_true, List.mem_cons] at h
      rcases h with h | h
      · exact Or.inr h
      · exact Or.inl (List.mem_cons_of_mem _ h)
    · simp only [hk, if_false, List.mem_cons] at h
      rcases h with h | h
      · exact Or.inl (by simp [h])
      · rcases ih h with h1 | h1
        · exact Or.inl (List.mem_cons_of_mem _ h1)
        · exact Or.inr h1

theorem GoMap.get?_eq_some_iff (m : GoMap) (hn : (m.map Prod.fst).Nodup) (k v : String) :
    m.get? k = some v ↔ (k, v) ∈ m := by
  induction m with
  | nil => simp [GoMap.get?]
  | cons x rest ih =>
    obtain ⟨a, b⟩ := x
    simp only [List.map_cons, List.nodup_cons] at hn
    unfold GoMap.get?
    by_cases hk : a = k
    · subst hk
      simp only [if_true, List.mem_cons, Prod.mk.injEq, true_and, Option.some.injEq]
      constructor
      · intro h; exact Or.inl h.symm
      · rintro (h | h)
        · exact h.symm
        · exact absurd (List.mem_map_of_mem Prod.fst h) hn.1
    · have hk' : ¬ k = a := fun hh => hk hh.symm
      simp [hk, hk', ih hn.2]

/-! ## Lemmas on the loop of `readReceiversFromFile` -/

theorem receivers_nodup (lines : List String) (m : GoMap) (h : (m.map Prod.fst).Nodup) :
    ((lines.foldl addReceiverLine m).map Prod.fst).Nodup := by
  induction lines generalizing m with
  | nil => simpa using h
  | cons t ts ih =>
    simp only [List.foldl_cons]
    apply ih
    rcases addReceiverLine_cases m t with ⟨p0, p1, _, he⟩ | ⟨_, he⟩
    · rw [he]; exact GoMap.nodup_set m _ _ h
    · rw [he]; exact h

theorem receivers_mem (lines : List String) (m : GoMap) (e : String × String)
    (h : e ∈ lines.foldl addReceiverLine m) :
    e ∈ m ∨ ∃ text p0 p1, text ∈ lines ∧ Split text ',' = [p0, p1]
      ∧ e = (TrimSpace p0, TrimSpace p1) := by
  induction lines generalizing m with
  | nil => exact Or.inl (by simpa using h)
  | cons t ts ih =>
    simp only [List.foldl_cons] at h
    rcases ih _ h with h1 | ⟨text, p0, p1, hm, hs, he⟩
    · rcases addReceiverLine_cases m t with ⟨p0, p1, hs, he⟩ | ⟨_, he⟩
      · rw [he] at h1
        rcases GoMap.mem_set m _ _ e h1 with h2 | h2
        · exact Or.inl h2
        · exact Or.inr ⟨t, p0, p1, by simp, hs, h2⟩
      · rw [he] at h1
        exact Or.inl h1
    · exact Or.inr ⟨text, p0, p1, List.mem_cons_of_mem _ hm, hs, he⟩

theorem receivers_get?_unchanged (lines : List String) (m : GoMap) (k : String)
    (h : ∀ t ∈ lines, ∀ q0 q1, Split t ',' = [q0, q1] → TrimSpace q0 ≠ k) :
    (lines.foldl addReceiverLine m).get? k = m.get? k := by
  induction lines generalizing m with
  | nil => rfl
  | cons t ts ih =>
    simp only [List.foldl_cons]
    rw [ih _ (fun t' ht' => h t' (List.mem_cons_of_mem _ ht'))]
    rcases addReceiverLine_cases m t with ⟨p0, p1, hs, he⟩ | ⟨_, he⟩
    · rw [he, GoMap.get?_set]
      have := h t (by simp) p0 p1 hs
      simp [this]
    · rw [he]

theorem receivers_length_le (lines : List String) (m : GoMap) :
    (lines.foldl addReceiverLine m).length
      ≤ m.length + (lines.filter (fun t => t.data.count ',' = 1)).length := by
  induction lines generalizing m with
  | nil => simp
  | cons t ts ih =>
    simp only [List.foldl_cons]
    refine le_trans (ih _) ?_
    rcases addReceiverLine_cases m t with ⟨p0, p1, hs, he⟩ | ⟨hs, he⟩
    · have hc : t.data.count ',' = 1 := (Split_two_iff t).mp ⟨p0, p1, hs⟩
      have := GoMap.length_set_le m (TrimSpace p0) (TrimSpace p1)
      rw [he]
      simp [List.filter_cons, hc]
      omega
    · rw [he]
      by_cases hc : t.data.count ',' = 1
      · exact absurd ((Split_two_iff t).mpr hc) hs
      · simp [List.filter_cons, hc]

/-! ## Lemmas on the sender -/

namespace Sender

theorem buildMessages_ok {σ A W B : Type} (L : TonLib σ A W B) (entries : List (String × String))
    (acc msgs : List (Message A)) (h : buildMessages L entries acc = .ok msgs) :
    ∃ ms, msgs = acc ++ ms ∧ List.Forall₂ (BuiltFrom L) entries ms := by
  induction entries generalizing acc with
  | nil =>
    simp only [buildMessages, Except.ok.injEq] at h
    exact ⟨[], by simp [h], List.Forall₂.nil⟩
  | cons e rest ih =>
    obtain ⟨addrStr, amtStr⟩ := e
    unfold buildMessages at h
    split at h
    · cases h
    · next addr ha =>
      split at h
      · cases h
      · next amount hm =>
        obtain ⟨ms, hms, hf⟩ := ih _ h
        refine ⟨messageFor L addr amount :: ms, ?_, ?_⟩
        · rw [hms]; simp [messageFor]
        · exact List.Forall₂.cons ⟨addr, amount, ha, hm, rfl⟩ hf

theorem buildMessages_of_parses {σ A W B : Type} (L : TonLib σ A W B)
    (entries : List (String × String)) (acc : List (Message A))
    (h : ∀ e ∈ entries, Parses L e) : ∃ msgs, buildMessages L entries acc = .ok msgs := by
  induction entries generalizing acc with
  | nil => exact ⟨acc, rfl⟩
  | cons e rest ih =>
    obtain ⟨addrStr, amtStr⟩ := e
    obtain ⟨⟨addr, ha⟩, ⟨amount, hm⟩⟩ := h (addrStr, amtStr) (by simp)
    simp only at ha hm
    unfold buildMessages
    simp only [ha, hm]
    exact ih _ (fun e he => h e (List.mem_cons_of_mem _ he))

theorem parses_of_forall₂ {σ A W B : Type} (L : TonLib σ A W B)
    (entries : List (String × String)) (ms : List (Message A))
    (h : List.Forall₂ (BuiltFrom L) entries ms) : ∀ e ∈ entries, Parses L e := by
  induction h with
  | nil => simp
  | cons hb _ ih =>
    intro e he
    rcases List.mem_cons.mp he with rfl | he
    · obtain ⟨addr, amount, ha, hm, _⟩ := hb
      exact ⟨⟨addr, ha⟩, ⟨amount, hm⟩⟩
    · exact ih e he

theorem send_call_inv {σ A W B : Type} (L : TonLib σ A W B) (s0 : σ) (msgs : List (Message A))
    (h : Event.call (.SendManyWaitTxHash msgs) ∈ (main L s0).trace) :
    ∃ words w block balance receivers s3, SetupOk L s0 words w block balance receivers s3
      ∧ 3000000 ≤ Uint64 balance
      ∧ buildMessages L (L.rangeOrder receivers) [] = .ok msgs := by
  unfold main at h
  simp only [] at h
  split at h
  · simp [fatalEntry] at h
  · next s1 h1 =>
    split at h
    · simp [fatalEntry] at h
    · next words h2 =>
      split at h
      · simp [fatalEntry] at h
      · next w h3 =>
        split at h
        · simp [fatalEntry] at h
        · next block s2 h4 =>
          split at h
          · simp [fatalEntry] at h
          · next balance s3 h5 =>
            split at h
            · simp [fatalEntry] at h
            · next receivers h6 =>
              split at h
              · next hb =>
                split at h
                · simp at h
                · next messages h7 =>
                  refine ⟨words, w, block, balance, receivers, s3,
                    ⟨s1, s2, h1, h2, h3, h4, h5, h6⟩, hb, ?_⟩
                  have hm : messages = msgs := by
                    split at h
                    · simp [fatalEntry] at h
                      exact h.symm
                    · split at h <;> (simp [fatalEntry, transferEntry] at h; exact h.symm)
                  rw [← hm]
                  exact h7
              · simp at h

theorem main_below {σ A W B : Type} (L : TonLib σ A W B) (s0 : σ) (words : List String) (w : W)
    (block : B) (balance : Int) (receivers : GoMap) (s3 : σ)
    (h : SetupOk L s0 words w block balance receivers s3) (hb : Uint64 balance < 3000000) :
    main L s0 = ⟨setupTrace L words w block balance
      ++ [.log ⟨.warn, [.str "balance" (.coinsString balance)], "Not enough balance", []⟩],
      .returned, s3⟩ := by
  obtain ⟨s1, s2, h1, h2, h3, h4, h5, h6⟩ := h
  have hb' : ¬ Uint64 balance ≥ 3000000 := by omega
  simp [main, h1, h2, h3, h4, h5, h6, hb', setupTrace]

theorem main_panic {σ A W B : Type} (L : TonLib σ A W B) (s0 : σ) (words : List String) (w : W)
    (block : B) (balance : Int) (receivers : GoMap) (s3 : σ) (err : String)
    (h : SetupOk L s0 words w block balance receivers s3) (hb : 3000000 ≤ Uint64 balance)
    (he : buildMessages L (L.rangeOrder receivers) [] = .error err) :
    main L s0 = ⟨setupTrace L words w block balance, .panicked err, s3⟩ := by
  obtain ⟨s1, s2, h1, h2, h3, h4, h5, h6⟩ := h
  have hb' : Uint64 balance ≥ 3000000 := hb
  simp [main, h1, h2, h3, h4, h5, h6, hb', he, setupTrace]

theorem main_send_failed {σ A W B : Type} (L : TonLib σ A W B) (s0 : σ) (words : List String)
    (w : W) (block : B) (balance : Int) (receivers : GoMap) (s3 s4 : σ) (err : String)
    (msgs : List (Message A))
    (h : SetupOk L s0 words w block balance receivers s3) (hb : 3000000 ≤ Uint64 balance)
    (hm : buildMessages L (L.rangeOrder receivers) [] = .ok msgs)
    (hs : L.SendManyWaitTxHash w msgs s3 = (.error err, s4)) :
    main L s0 = ⟨setupTrace L words w block balance
      ++ [.log ⟨.info, [], "Sending transaction and waiting for confirmation...", []⟩,
        .call (.SendManyWaitTxHash msgs), fatalEntry err "Transfer failed"], .fatal, s4⟩ := by
  obtain ⟨s1, s2, h1, h2, h3, h4, h5, h6⟩ := h
  have hb' : Uint64 balance ≥ 3000000 := hb
  simp [main, h1, h2, h3, h4, h5, h6, hb', hm, hs, setupTrace]

theorem main_sent {σ A W B : Type} (L : TonLib σ A W B) (s0 : σ) (words : List String)
    (w : W) (block : B) (balance : Int) (receivers : GoMap) (s3 s4 : σ) (txHash : List Nat)
    (msgs : List (Message A))
    (h : SetupOk L s0 words w block balance receivers s3) (hb : 3000000 ≤ Uint64 balance)
    (hm : buildMessages L (L.rangeOrder receivers) [] = .ok msgs)
    (hs : L.SendManyWaitTxHash w msgs s3 = (.ok txHash, s4)) :
    main L s0 =
      match L.GetBalance w block s4 with
      | (.error err, s5) =>
        ⟨setupTrace L words w block balance ++ sendTrace msgs txHash block
          ++ [.log ⟨.error, [.err err], "Failed to get new balance after transactions", []⟩],
          .returned, s5⟩
      | (.ok newBalance, s5) =>
        ⟨setupTrace L words w block balance ++ sendTrace msgs txHash block
          ++ [.log ⟨.info, [.str "new_balance" (.coinsString newBalance)],
            "New balance of sender's wallet after transactions", []⟩], .returned, s5⟩ := by
  obtain ⟨s1, s2, h1, h2, h3, h4, h5, h6⟩ := h
  have hb' : Uint64 balance ≥ 3000000 := hb
  simp only [main, h1, h2, h3, h4, h5, h6, hb', hm, hs, setupTrace, sendTrace, if_true]
  split <;> simp

theorem failed_connect {σ A W B : Type} (L : TonLib σ A W B) (s0 s1 : σ) (err : String)
    (h1 : L.AddConnectionsFromConfigUrl configUrl s0 = (some err, s1)) :
    FailedAt (main L s0) [.AddConnectionsFromConfigUrl configUrl] err
      "Failed to connect to mainnet" := by
  have hm : main L s0 = ⟨[.call (.AddConnectionsFromConfigUrl configUrl),
      fatalEntry err "Failed to connect to mainnet"], .fatal, s1⟩ := by
    simp [main, h1]
  rw [hm]
  exact ⟨rfl, by simp [callsOf, fatalEntry], by simp, by simp [batchesOf, fatalEntry]⟩

theorem failed_phrase {σ A W B : Type} (L : TonLib σ A W B) (s0 s1 : σ) (words : List String)
    (err : String)
    (h1 : L.AddConnectionsFromConfigUrl configUrl s0 = (none, s1))
    (h2 : readPhraseFromFile (L.file "phrase.txt") = (words, some err)) :
    FailedAt (main L s0)
      [.AddConnectionsFromConfigUrl configUrl, .readPhraseFromFile "phrase.txt"] err
      "Failed to read seed phrase from file" := by
  have hm : main L s0 = ⟨[.call (.AddConnectionsFromConfigUrl configUrl),
      .call (.readPhraseFromFile "phrase.txt"),
      fatalEntry err "Failed to read seed phrase from file"], .fatal, s1⟩ := by
    simp [main, h1, h2]
  rw [hm]
  exact ⟨rfl, by simp [callsOf, fatalEntry], by simp, by simp [batchesOf, fatalEntry]⟩

theorem failed_seed {σ A W B : Type} (L : TonLib σ A W B) (s0 s1 : σ) (words : List String)
    (err : String)
    (h1 : L.AddConnectionsFromConfigUrl configUrl s0 = (none, s1))
    (h2 : readPhraseFromFile (L.file "phrase.txt") = (words, none))
    (h3 : L.FromSeed words = .error err) :
    FailedAt (main L s0)
      [.AddConnectionsFromConfigUrl configUrl, .readPhraseFromFile "phrase.txt",
        .FromSeed words] err "Failed to initialize wallet" := by
  have hm : main L s0 = ⟨[.call (.AddConnectionsFromConfigUrl configUrl),
      .call (.readPhraseFromFile "phrase.txt"), .call (.FromSeed words),
      fatalEntry err "Failed to initialize wallet"], .fatal, s1⟩ := by
    simp [main, h1, h2, h3]
  rw [hm]
  exact ⟨rfl, by simp [callsOf, fatalEntry], by simp, by simp [batchesOf, fatalEntry]⟩

theorem failed_info {σ A W B : Type} (L : TonLib σ A W B) (s0 s1 s2 : σ) (words : List String)
    (w : W) (err : String)
    (h1 : L.AddConnectionsFromConfigUrl configUrl s0 = (none, s1))
    (h2 : readPhraseFromFile (L.file "phrase.txt") = (words, none))
    (h3 : L.FromSeed words = .ok w)
    (h4 : L.CurrentMasterchainInfo s1 = (.error err, s2)) :
    FailedAt (main L s0)
      [.AddConnectionsFromConfigUrl configUrl, .readPhraseFromFile "phrase.txt",
        .FromSeed words, .CurrentMasterchainInfo] err
      "Failed to get current masterchain info" := by
  have hm : main L s0 = ⟨[.call (.AddConnectionsFromConfigUrl configUrl),
      .call (.readPhraseFromFile "phrase.txt"), .call (.FromSeed words),
      .log ⟨.info, [.str "address" (.addrString (L.WalletAddress w))], "Wallet address", []⟩,
      .call .CurrentMasterchainInfo,
      fatalEntry err "Failed to get current masterchain info"], .fatal, s2⟩ := by
    simp [main, h1, h2, h3, h4]
  rw [hm]
  exact ⟨rfl, by simp [callsOf, fatalEntry], by simp, by simp [batchesOf, fatalEntry]⟩

theorem failed_balance {σ A W B : Type} (L : TonLib σ A W B) (s0 s1 s2 s3 : σ)
    (words : List String) (w : W) (block : B) (err : String)
    (h1 : L.AddConnectionsFromConfigUrl configUrl s0 = (none, s1))
    (h2 : readPhraseFromFile (L.file "phrase.txt") = (words, none))
    (h3 : L.FromSeed words = .ok w)
    (h4 : L.CurrentMasterchainInfo s1 = (.ok block, s2))
    (h5 : L.GetBalance w block s2 = (.error err, s3)) :
    FailedAt (main L s0)
      [.AddConnectionsFromConfigUrl configUrl, .readPhraseFromFile "phrase.txt",
        .FromSeed words, .CurrentMasterchainInfo, .GetBalance block] err
      "Failed to get balance" := by
  have hm : main L s0 = ⟨[.call (.AddConnectionsFromConfigUrl configUrl),
      .call (.readPhraseFromFile "phrase.txt"), .call (.FromSeed words),
      .log ⟨.info, [.str "address" (.addrString (L.WalletAddress w))], "Wallet address", []⟩,
      .call .CurrentMasterchainInfo, .call (.GetBalance block),
      fatalEntry err "Failed to get balance"], .fatal, s3⟩ := by
    simp [main, h1, h2, h3, h4, h5]
  rw [hm]
  exact ⟨rfl, by simp [callsOf, fatalEntry], by simp, by simp [batchesOf, fatalEntry]⟩

theorem failed_receivers {σ A W B : Type} (L : TonLib σ A W B) (s0 s1 s2 s3 : σ)
    (words : List String) (w : W) (block : B) (balance : Int) (receivers : GoMap) (err : String)
    (h1 : L.AddConnectionsFromConfigUrl configUrl s0 = (none, s1))
    (h2 : readPhraseFromFile (L.file "phrase.txt") = (words, none))
    (h3 : L.FromSeed words = .ok w)
    (h4 : L.CurrentMasterchainInfo s1 = (.ok block, s2))
    (h5 : L.GetBalance w block s2 = (.ok balance, s3))
    (h6 : readReceiversFromFile (L.file "receiver.txt") = (receivers, some err)) :
    FailedAt (main L s0)
      [.AddConnectionsFromConfigUrl configUrl, .readPhraseFromFile "phrase.txt",
        .FromSeed words, .CurrentMasterchainInfo, .GetBalance block,
        .readReceiversFromFile "receiver.txt"] err
      "Failed to read receivers from file" := by
  have hm : main L s0 = ⟨setupTrace L words w block balance
      ++ [fatalEntry err "Failed to read receivers from file"], .fatal, s3⟩ := by
    simp [main, h1, h2, h3, h4, h5, h6, setupTrace]
  rw [hm]
  exact ⟨rfl, by simp [callsOf, fatalEntry, setupTrace], by simp,
    by simp [batchesOf, fatalEntry, setupTrace]⟩

theorem mem_batchesOf {A B : Type} (t : List (Event A B)) (msgs : List (Message A)) :
    msgs ∈ batchesOf t ↔ Event.call (.SendManyWaitTxHash msgs) ∈ t := by
  unfold batchesOf
  rw [List.mem_filterMap]
  constructor
  · rintro ⟨e, he, hm⟩
    split at hm
    · cases hm
      exact he
    · cases hm
  · intro h
    exact ⟨_, h, rfl⟩

theorem batchesOf_append {A B : Type} (t1 t2 : List (Event A B)) :
    batchesOf (t1 ++ t2) = batchesOf t1 ++ batchesOf t2 := by
  simp [batchesOf]

theorem batchesOf_transfers {A B : Type} (msgs : List (Message A)) :
    batchesOf (msgs.map (transferEntry : Message A → Event A B)) = [] := by
  induction msgs with
  | nil => rfl
  | cons m ms ih =>
    simp only [List.map_cons]
    rw [show (transferEntry m :: List.map transferEntry ms : List (Event A B))
      = [transferEntry m] ++ List.map transferEntry ms from rfl, batchesOf_append, ih]
    simp [batchesOf, transferEntry]

theorem batchesOf_setupTrace {σ A W B : Type} (L : TonLib σ A W B) (words : List String) (w : W)
    (block : B) (balance : Int) : batchesOf (setupTrace L words w block balance) = [] := by
  simp [batchesOf, setupTrace]

theorem batchesOf_sendTrace {A B : Type} (msgs : List (Message A)) (txHash : List Nat)
    (block : B) : batchesOf (sendTrace msgs txHash block : List (Event A B)) = [msgs] := by
  unfold sendTrace
  rw [batchesOf_append, batchesOf_append, batchesOf_transfers]
  simp [batchesOf]

theorem batches_of_built {σ A W B : Type} (L : TonLib σ A W B) (s0 : σ) (words : List String)
    (w : W) (block : B) (balance : Int) (receivers : GoMap) (s3 : σ) (msgs : List (Message A))
    (h : SetupOk L s0 words w block balance receivers s3) (hb : 3000000 ≤ Uint64 balance)
    (hm : buildMessages L (L.rangeOrder receivers) [] = .ok msgs) :
    batchesOf (main L s0).trace = [msgs] := by
  rcases hs : L.SendManyWaitTxHash w msgs s3 with ⟨res, s4⟩
  cases res with
  | error err =>
    rw [main_send_failed L s0 words w block balance receivers s3 s4 err msgs h hb hm hs]
    simp only [batchesOf_append, batchesOf_setupTrace]
    simp [batchesOf, fatalEntry]
  | ok txHash =>
    rw [main_sent L s0 words w block balance receivers s3 s4 txHash msgs h hb hm hs]
    split <;>
      (simp only [batchesOf_append, batchesOf_setupTrace, batchesOf_sendTrace]
       simp [batchesOf])

theorem batches_nil_of_below {σ A W B : Type} (L : TonLib σ A W B) (s0 : σ)
    (words : List String) (w : W) (block : B) (balance : Int) (receivers : GoMap) (s3 : σ)
    (h : SetupOk L s0 words w block balance receivers s3) (hb : Uint64 balance < 3000000) :
    batchesOf (main L s0).trace = [] := by
  rw [main_below L s0 words w block balance receivers s3 h hb, batchesOf_append,
    batchesOf_setupTrace]
  simp [batchesOf]

theorem batches_nil_of_panic {σ A W B : Type} (L : TonLib σ A W B) (s0 : σ)
    (words : List String) (w : W) (block : B) (balance : Int) (receivers : GoMap) (s3 : σ)
    (err : String)
    (h : SetupOk L s0 words w block balance receivers s3) (hb : 3000000 ≤ Uint64 balance)
    (he : buildMessages L (L.rangeOrder receivers) [] = .error err) :
    batchesOf (main L s0).trace = [] := by
  rw [main_panic L s0 words w block balance receivers s3 err h hb he, batchesOf_setupTrace]

theorem batches_nil_or_built {σ A W B : Type} (L : TonLib σ A W B) (s0 : σ) :
    batchesOf (main L s0).trace = []
      ∨ ∃ msgs words w block balance receivers s3,
          SetupOk L s0 words w block balance receivers s3 ∧ 3000000 ≤ Uint64 balance
          ∧ buildMessages L (L.rangeOrder receivers) [] = .ok msgs
          ∧ batchesOf (main L s0).trace = [msgs] := by
  cases hbs : batchesOf (main L s0).trace with
  | nil => exact Or.inl rfl
  | cons msgs rest =>
    right
    have hmem : msgs ∈ batchesOf (main L s0).trace := by rw [hbs]; simp
    obtain ⟨words, w, block, balance, receivers, s3, h, hb, hm⟩ :=
      send_call_inv L s0 msgs ((mem_batchesOf _ _).mp hmem)
    refine ⟨msgs, words, w, block, balance, receivers, s3, h, hb, hm, ?_⟩
    rw [← hbs]
    exact batches_of_built L s0 words w block balance receivers s3 msgs h hb hm

theorem build_error_of_bad {σ A W B : Type} (L : TonLib σ A W B) (receivers : GoMap)
    (hbad : ∃ e ∈ receivers, ¬ Parses L e) :
    ∃ err, buildMessages L (L.rangeOrder receivers) [] = .error err := by
  cases hm : buildMessages L (L.rangeOrder receivers) [] with
  | error err => exact ⟨err, rfl⟩
  | ok msgs =>
    exfalso
    obtain ⟨e, he, hne⟩ := hbad
    obtain ⟨ms, _, hf⟩ := buildMessages_ok L _ [] msgs hm
    exact hne (parses_of_forall₂ L _ ms hf e ((L.rangeOrder_perm receivers).mem_iff.mpr he))

theorem receivers_file_nodup (f : FileRead) (receivers : GoMap)
    (h : readReceiversFromFile f = (receivers, none)) : (receivers.map Prod.fst).Nodup := by
  cases f with
  | openError err => simp [readReceiversFromFile] at h
  | scanned lines scanErr =>
    cases scanErr with
    | some err => simp [readReceiversFromFile] at h
    | none =>
      simp only [readReceiversFromFile, Prod.mk.injEq, and_true] at h
      rw [← h]
      exact receivers_nodup lines [] (by simp)

end Sender

/-! ## Lemmas on the balance checker -/

namespace BalanceCheck

theorem checkAddresses_length {σ A W B : Type} (L : TonLib σ A W B) (block : B)
    (lines : List String) (s : σ) : (checkAddresses L block lines s).1.length = lines.length := by
  induction lines generalizing s with
  | nil => rfl
  | cons a rest ih => simp [checkAddresses, ih]

theorem checkAddresses_get? {σ A W B : Type} (L : TonLib σ A W B) (block : B)
    (lines : List String) (s : σ) (i : Nat) (h : i < lines.length) :
    (checkAddresses L block lines s).1.get? i
      = some (checkAddress L block (lines.get ⟨i, h⟩)
          (checkAddresses L block (lines.take i) s).2).1 := by
  induction lines generalizing s i with
  | nil => simp at h
  | cons a rest ih =>
    cases i with
    | zero => simp [checkAddresses]
    | succ j =>
      have hj : j < rest.length := by simpa using h
      simp only [checkAddresses, List.get?_cons_succ, List.take_succ_cons, List.get_cons_succ]
      exact ih _ j hj

end BalanceCheck

/-! ## The sample world passes the setup -/

theorem Sample.setupOk (receivers addresses : List String) (b : Int) :
    Sender.SetupOk (Sample.lib (Sample.scenario receivers addresses)) ⟨[b]⟩
      ["abandon", "ability", "able"] () 0 b
      (readReceiversFromFile (.scanned receivers none)).1 ⟨[b]⟩ :=
  ⟨⟨[b]⟩, ⟨[b]⟩, rfl, rfl, rfl, rfl, rfl, rfl⟩

/-! ## The claims -/

open Sender BalanceCheck

/-- C1 (sender fail-fast): for whichever setup step of the sender's `main` is the
first to fail (the connections, `phrase.txt`, the wallet, the masterchain info,
the balance, `receiver.txt`), the run ends in `log.Fatal` with that step's message
as its last event, the calls made are exactly the steps up to the failed one, and
no batch is handed to `SendManyWaitTxHash`. -/
theorem sender_fail_fast {σ A W B : Type} (L : TonLib σ A W B) (s0 : σ) :
    (∀ s1 err, L.AddConnectionsFromConfigUrl configUrl s0 = (some err, s1) →
      FailedAt (main L s0) [.AddConnectionsFromConfigUrl configUrl] err
        "Failed to connect to mainnet")
    ∧ (∀ s1 words err, L.AddConnectionsFromConfigUrl configUrl s0 = (none, s1) →
      readPhraseFromFile (L.file "phrase.txt") = (words, some err) →
      FailedAt (main L s0)
        [.AddConnectionsFromConfigUrl configUrl, .readPhraseFromFile "phrase.txt"] err
        "Failed to read seed phrase from file")
    ∧ (∀ s1 words err, L.AddConnectionsFromConfigUrl configUrl s0 = (none, s1) →
      readPhraseFromFile (L.file "phrase.txt") = (words, none) →
      L.FromSeed words = .error err →
      FailedAt (main L s0)
        [.AddConnectionsFromConfigUrl configUrl, .readPhraseFromFile "phrase.txt",
          .FromSeed words] err "Failed to initialize wallet")
    ∧ (∀ s1 s2 words w err, L.AddConnectionsFromConfigUrl configUrl s0 = (none, s1) →
      readPhraseFromFile (L.file "phrase.txt") = (words, none) →
      L.FromSeed words = .ok w →
      L.CurrentMasterchainInfo s1 = (.error err, s2) →
      FailedAt (main L s0)
        [.AddConnectionsFromConfigUrl configUrl, .readPhraseFromFile "phrase.txt",
          .FromSeed words, .CurrentMasterchainInfo] err
        "Failed to get current masterchain info")
    ∧ (∀ s1 s2 s3 words w block err, L.AddConnectionsFromConfigUrl configUrl s0 = (none, s1) →
      readPhraseFromFile (L.file "phrase.txt") = (words, none) →
      L.FromSeed words = .ok w →
      L.CurrentMasterchainInfo s1 = (.ok block, s2) →
      L.GetBalance w block s2 = (.error err, s3) →
      FailedAt (main L s0)
        [.AddConnectionsFromConfigUrl configUrl, .readPhraseFromFile "phrase.txt",
          .FromSeed words, .CurrentMasterchainInfo, .GetBalance block] err
        "Failed to get balance")
    ∧ (∀ s1 s2 s3 words w block balance receivers err,
      L.AddConnectionsFromConfigUrl configUrl s0 = (none, s1) →
      readPhraseFromFile (L.file "phrase.txt") = (words, none) →
      L.FromSeed words = .ok w →
      L.CurrentMasterchainInfo s1 = (.ok block, s2) →
      L.GetBalance w block s2 = (.ok balance, s3) →
      readReceiversFromFile (L.file "receiver.txt") = (receivers, some err) →
      FailedAt (main L s0)
        [.AddConnectionsFromConfigUrl configUrl, .readPhraseFromFile "phrase.txt",
          .FromSeed words, .CurrentMasterchainInfo, .GetBalance block,
          .readReceiversFromFile "receiver.txt"] err
        "Failed to read receivers from file") :=
  ⟨fun s1 err h1 => failed_connect L s0 s1 err h1,
   fun s1 words err h1 h2 => failed_phrase L s0 s1 words err h1 h2,
   fun s1 words err h1 h2 h3 => failed_seed L s0 s1 words err h1 h2 h3,
   fun s1 s2 words w err h1 h2 h3 h4 => failed_info L s0 s1 s2 words w err h1 h2 h3 h4,
   fun s1 s2 s3 words w block err h1 h2 h3 h4 h5 =>
     failed_balance L s0 s1 s2 s3 words w block err h1 h2 h3 h4 h5,
   fun s1 s2 s3 words w block balance receivers err h1 h2 h3 h4 h5 h6 =>
     failed_receivers L s0 s1 s2 s3 words w block balance receivers err h1 h2 h3 h4 h5 h6⟩

/-- The sample sender with each of the six setup steps failing in turn. -/
theorem sender_fail_fast_witness :
    FailedAt (main (Sample.lib (Sample.failing 1)) ⟨[5000000000]⟩)
      [.AddConnectionsFromConfigUrl configUrl] "no connection" "Failed to connect to mainnet"
    ∧ FailedAt (main (Sample.lib (Sample.failing 2)) ⟨[5000000000]⟩)
      [.AddConnectionsFromConfigUrl configUrl, .readPhraseFromFile "phrase.txt"]
      "no such file" "Failed to read seed phrase from file"
    ∧ FailedAt (main (Sample.lib (Sample.failing 3)) ⟨[5000000000]⟩)
      [.AddConnectionsFromConfigUrl configUrl, .readPhraseFromFile "phrase.txt",
        .FromSeed ["abandon", "ability", "able"]] "bad seed" "Failed to initialize wallet"
    ∧ FailedAt (main (Sample.lib (Sample.failing 4)) ⟨[5000000000]⟩)
      [.AddConnectionsFromConfigUrl configUrl, .readPhraseFromFile "phrase.txt",
        .FromSeed ["abandon", "ability", "able"], .CurrentMasterchainInfo] "timeout"
      "Failed to get current masterchain info"
    ∧ FailedAt (main (Sample.lib (Sample.failing 5)) ⟨[5000000000]⟩)
      [.AddConnectionsFromConfigUrl configUrl, .readPhraseFromFile "phrase.txt",
        .FromSeed ["abandon", "ability", "able"], .CurrentMasterchainInfo, .GetBalance 0]
      "timeout" "Failed to get balance"
    ∧ FailedAt (main (Sample.lib (Sample.failing 6)) ⟨[5000000000]⟩)
      [.AddConnectionsFromConfigUrl configUrl, .readPhraseFromFile "phrase.txt",
        .FromSeed ["abandon", "ability", "able"], .CurrentMasterchainInfo, .GetBalance 0,
        .readReceiversFromFile "receiver.txt"] "token too long"
      "Failed to read receivers from file" :=
  ⟨(sender_fail_fast (Sample.lib (Sample.failing 1)) ⟨[5000000000]⟩).1
      ⟨[5000000000]⟩ "no connection" rfl,
   (sender_fail_fast (Sample.lib (Sample.failing 2)) ⟨[5000000000]⟩).2.1
      ⟨[5000000000]⟩ [] "no such file" rfl (by decide),
   (sender_fail_fast (Sample.lib (Sample.failing 3)) ⟨[5000000000]⟩).2.2.1
      ⟨[5000000000]⟩ ["abandon", "ability", "able"] "bad seed" rfl (by decide) rfl,
   (sender_fail_fast (Sample.lib (Sample.failing 4)) ⟨[5000000000]⟩).2.2.2.1
      ⟨[5000000000]⟩ ⟨[5000000000]⟩ ["abandon", "ability", "able"] () "timeout"
      rfl (by decide) rfl rfl,
   (sender_fail_fast (Sample.lib (Sample.failing 5)) ⟨[5000000000]⟩).2.2.2.2.1
      ⟨[5000000000]⟩ ⟨[5000000000]⟩ ⟨[5000000000]⟩ ["abandon", "ability", "able"] () 0
      "timeout" rfl (by decide) rfl rfl rfl,
   (sender_fail_fast (Sample.lib (Sample.failing 6)) ⟨[5000000000]⟩).2.2.2.2.2
      ⟨[5000000000]⟩ ⟨[5000000000]⟩ ⟨[5000000000]⟩ ["abandon", "ability", "able"] () 0
      5000000000 [] "token too long" rfl (by decide) rfl rfl rfl (by decide)⟩

/-- C2 (balance checker log-and-continue): once `address.txt` has been read into
`addresses`, `MassBalanceCheck` returns no error; its log is the announcement
followed by exactly one entry per address, in file order, the entry at position
`i` being the one the loop body writes for the `i`-th address whatever the
earlier addresses did; and the loop body writes an error entry carrying the
address text when the address does not parse, when the account fetch fails, or
when the account or its state is nil, and otherwise the balance entry carrying
the address text and the balance of that account state. -/
theorem mass_balance_check_continues {σ A W B : Type} (L : TonLib σ A W B) (block : B) (s : σ)
    (addresses : List String)
    (hf : readAddressFromFile (L.file "address.txt") = (addresses, none)) :
    (MassBalanceCheck L block s).err = none
    ∧ (MassBalanceCheck L block s).log.length = addresses.length + 1
    ∧ (MassBalanceCheck L block s).log.head? = some ⟨.info, [], "Checking balances...", []⟩
    ∧ (∀ i (h : i < addresses.length),
        (MassBalanceCheck L block s).log.get? (i + 1)
          = some (checkAddress L block (addresses.get ⟨i, h⟩)
              (checkAddresses L block (addresses.take i) s).2).1)
    ∧ (∀ addr s' err, L.ParseAddr addr = .error err →
        checkAddress L block addr s'
          = (⟨.error, [.err err, .str "address" (.text addr)], "Failed to parse address", []⟩,
              s'))
    ∧ (∀ addr s' s1 parsed err, L.ParseAddr addr = .ok parsed →
        L.GetAccount block parsed s' = (.error err, s1) →
        checkAddress L block addr s'
          = (⟨.error, [.err err, .str "address" (.text addr)], "Failed to get account", []⟩,
              s1))
    ∧ (∀ addr s' s1 parsed account, L.ParseAddr addr = .ok parsed →
        L.GetAccount block parsed s' = (.ok account, s1) →
        (account = none ∨ account = some ⟨none⟩) →
        checkAddress L block addr s'
          = (⟨.error, [.str "address" (.text addr)], "Has no balance", []⟩, s1))
    ∧ (∀ addr s' s1 parsed state, L.ParseAddr addr = .ok parsed →
        L.GetAccount block parsed s' = (.ok (some ⟨some state⟩), s1) →
        checkAddress L block addr s'
          = (⟨.info, [], "address = %s, balance = %s",
              [.text addr, .coinsString state.Balance]⟩, s1)) := by
  have hm : MassBalanceCheck L block s
      = ⟨⟨.info, [], "Checking balances...", []⟩ :: (checkAddresses L block addresses s).1,
          none, (checkAddresses L block addresses s).2⟩ := by
    simp [MassBalanceCheck, hf]
  rw [hm]
  refine ⟨rfl, by simp [checkAddresses_length], rfl, ?_, ?_, ?_, ?_, ?_⟩
  · intro i h
    simp only [List.get?_cons_succ]
    exact checkAddresses_get? L block addresses s i h
  · intro addr s' err hp
    simp [checkAddress, hp]
  · intro addr s' s1 parsed err hp hg
    simp [checkAddress, hp, hg]
  · intro addr s' s1 parsed account hp hg hn
    rcases hn with rfl | rfl <;> simp [checkAddress, hp, hg]
  · intro addr s' s1 parsed state hp hg
    simp [checkAddress, hp, hg]

/-- The sample balance checker on four address lines, three of which fail. -/
theorem mass_balance_check_continues_witness :
    (MassBalanceCheck (Sample.lib (Sample.scenario [] ["Eone", "x", " Enil", "Eone "])) 0
      ⟨[]⟩).err = none
    ∧ (MassBalanceCheck (Sample.lib (Sample.scenario [] ["Eone", "x", " Enil", "Eone "])) 0
      ⟨[]⟩).log.length = 5 :=
  ⟨(mass_balance_check_continues
      (Sample.lib (Sample.scenario [] ["Eone", "x", " Enil", "Eone "])) 0 ⟨[]⟩
      ["Eone", "x", "Enil", "Eone"] (by decide)).1,
   (mass_balance_check_continues
      (Sample.lib (Sample.scenario [] ["Eone", "x", " Enil", "Eone "])) 0 ⟨[]⟩
      ["Eone", "x", "Enil", "Eone"] (by decide)).2.1⟩

/-- C6, as amended (a file read without an open or scan error): for the lines
of a file scanned without error, `readReceiversFromFile` returns no error and a
map with one entry per key; every entry comes from a line that `strings.Split`
on `,` cuts into exactly two parts, with the trimmed first part as key and the
trimmed second part as value; such a line after which no later two-part line
has the same trimmed key has its trimmed value in the map (so the last one
wins); a line has exactly two parts exactly when it holds exactly one comma,
the parts being the text before and after it; and an open error or a scan
error gives a nil map and that error, whatever lines were scanned. -/
theorem receivers_file_format (lines : List String) :
    (readReceiversFromFile (.scanned lines none)).2 = none
    ∧ ((readReceiversFromFile (.scanned lines none)).1.map Prod.fst).Nodup
    ∧ (∀ k v, (readReceiversFromFile (.scanned lines none)).1.get? k = some v
        ↔ (k, v) ∈ (readReceiversFromFile (.scanned lines none)).1)
    ∧ (∀ k v, (k, v) ∈ (readReceiversFromFile (.scanned lines none)).1 →
        ∃ text p0 p1, text ∈ lines ∧ Split text ',' = [p0, p1]
          ∧ k = TrimSpace p0 ∧ v = TrimSpace p1)
    ∧ (∀ pre text post p0 p1, lines = pre ++ text :: post → Split text ',' = [p0, p1] →
        (∀ t ∈ post, ∀ q0 q1, Split t ',' = [q0, q1] → TrimSpace q0 ≠ TrimSpace p0) →
        (readReceiversFromFile (.scanned lines none)).1.get? (TrimSpace p0)
          = some (TrimSpace p1))
    ∧ (∀ text, (∃ p0 p1, Split text ',' = [p0, p1]) ↔ text.data.count ',' = 1)
    ∧ (∀ text p0 p1, Split text ',' = [p0, p1] →
        text.data = p0.data ++ ',' :: p1.data ∧ ',' ∉ p0.data ∧ ',' ∉ p1.data)
    ∧ (∀ err, readReceiversFromFile (.openError err) = ([], some err))
    ∧ (∀ err, readReceiversFromFile (.scanned lines (some err)) = ([], some err)) := by
  have hr : readReceiversFromFile (.scanned lines none)
      = (lines.foldl addReceiverLine [], none) := rfl
  rw [hr]
  have hn := receivers_nodup lines [] (by simp)
  refine ⟨rfl, hn, fun k v => GoMap.get?_eq_some_iff _ hn k v, ?_, ?_, Split_two_iff,
    Split_two_parts, fun err => rfl, fun err => rfl⟩
  · intro k v hkv
    rcases receivers_mem lines [] (k, v) hkv with h | ⟨text, p0, p1, hm, hs, he⟩
    · simp at h
    · simp only [Prod.mk.injEq] at he
      exact ⟨text, p0, p1, hm, hs, he.1, he.2⟩
  · intro pre text post p0 p1 hl hs hlast
    subst hl
    simp only [List.foldl_append, List.foldl_cons]
    rw [receivers_get?_unchanged post _ _ hlast, addReceiverLine_of_two _ text p0 p1 hs,
      GoMap.get?_set]
    simp

/-- A file whose first line is `Ea,1` and whose next line is too long for the
scanner: the line `Ea,1` has exactly two parts, yet the reader returns a nil
map, without an entry for `Ea`, and the scanner's error. -/
theorem receivers_lost_on_scan_error :
    (∃ p0 p1, Split "Ea,1" ',' = [p0, p1])
    ∧ readReceiversFromFile (.scanned ["Ea,1"] (some "bufio.Scanner: token too long"))
      = ([], some "bufio.Scanner: token too long")
    ∧ (readReceiversFromFile
        (.scanned ["Ea,1"] (some "bufio.Scanner: token too long"))).1.get? "Ea" = none
    ∧ ¬ (readReceiversFromFile
        (.scanned ["Ea,1"] (some "bufio.Scanner: token too long"))).2 = none :=
  ⟨⟨"Ea", "1", by decide⟩, by decide, by decide, by decide⟩

/-- C7 (address file format): for the lines of a file scanned without error,
`readAddressFromFile` returns no error and one entry per line, in file order,
the `i`-th entry being `strings.TrimSpace` of the `i`-th line; a trimmed text is
the line without a run of spaces at its start and at its end, it neither starts
nor ends with a space, and a line of spaces only (a blank line) gives the empty
string; an open error or a scan error gives a nil list and that error. -/
theorem address_file_format (lines : List String) :
    readAddressFromFile (.scanned lines none) = (lines.map TrimSpace, none)
    ∧ (readAddressFromFile (.scanned lines none)).1.length = lines.length
    ∧ (∀ i (h : i < lines.length),
        (readAddressFromFile (.scanned lines none)).1.get? i
          = some (TrimSpace (lines.get ⟨i, h⟩)))
    ∧ (∀ text, ∃ pre post, text.data = pre ++ (TrimSpace text).data ++ post
        ∧ (∀ c ∈ pre, isSpace c = true) ∧ (∀ c ∈ post, isSpace c = true))
    ∧ (∀ text c, (TrimSpace text).data.head? = some c → isSpace c = false)
    ∧ (∀ text c, (TrimSpace text).data.getLast? = some c → isSpace c = false)
    ∧ (∀ text, (∀ c ∈ text.data, isSpace c = true) → TrimSpace text = "")
    ∧ (∀ err, readAddressFromFile (.openError err) = ([], some err))
    ∧ (∀ err, readAddressFromFile (.scanned lines (some err)) = ([], some err)) := by
  have hr : readAddressFromFile (.scanned lines none) = (lines.map TrimSpace, none) := by
    simp [readAddressFromFile, foldl_snoc_eq_map]
  rw [hr]
  refine ⟨rfl, by simp, ?_, ?_, ?_, ?_, ?_, fun err => rfl, fun err => rfl⟩
  · intro i h
    simp [List.getElem?_eq_getElem h]
  · intro text
    exact trimSpaceChars_decomp text.data
  · intro text c h
    exact trimSpaceChars_head text.data c h
  · intro text c h
    exact trimSpaceChars_getLast text.data c h
  · intro text h
    simp [TrimSpace, trimSpaceChars_all_space text.data h]

/-- C3, as amended (no cap of four): `readReceiversFromFile` returns at most as
many recipients as the file has lines with exactly one comma, hence at most
four when there are at most four such lines; and every batch the sender hands
to `SendManyWaitTxHash` has exactly one message per recipient returned. -/
theorem receivers_bounded_by_lines {σ A W B : Type} (L : TonLib σ A W B) (s0 : σ) :
    (∀ lines, (readReceiversFromFile (.scanned lines none)).1.length
        ≤ (lines.filter (fun t => t.data.count ',' = 1)).length)
    ∧ (∀ lines, (lines.filter (fun t => t.data.count ',' = 1)).length ≤ 4 →
        (readReceiversFromFile (.scanned lines none)).1.length ≤ 4)
    ∧ (∀ msgs ∈ batchesOf (main L s0).trace,
        msgs.length = (readReceiversFromFile (L.file "receiver.txt")).1.length) := by
  have h1 : ∀ lines, (readReceiversFromFile (.scanned lines none)).1.length
      ≤ (lines.filter (fun t => t.data.count ',' = 1)).length := by
    intro lines
    have := receivers_length_le lines []
    simpa [readReceiversFromFile] using this
  refine ⟨h1, fun lines h4 => le_trans (h1 lines) h4, ?_⟩
  intro msgs hmem
  obtain ⟨words, w, block, balance, receivers, s3, hs, _, hm⟩ :=
    send_call_inv L s0 msgs ((mem_batchesOf _ _).mp hmem)
  obtain ⟨_, _, _, _, _, _, _, h6⟩ := hs
  obtain ⟨ms, hms, hf⟩ := buildMessages_ok L _ [] msgs hm
  simp only [List.nil_append] at hms
  subst hms
  rw [h6, ← hf.length_eq]
  exact (L.rangeOrder_perm receivers).length_eq

/-- A `receiver.txt` of five well-formed lines: five recipients are returned and
the sample sender hands a batch of five messages to `SendManyWaitTxHash`. -/
theorem receivers_exceed_four :
    ¬ (readReceiversFromFile
        (.scanned ["Ea,1", "Eb,1", "Ec,1", "Ed,1", "Ee,1"] none)).1.length ≤ 4
    ∧ (batchesOf (main (Sample.lib (Sample.scenario ["Ea,1", "Eb,1", "Ec,1", "Ed,1", "Ee,1"]
        [])) ⟨[9000000000]⟩).trace).map List.length = [5] := by
  constructor <;> decide

/-- The sample sender on two recipient lines hands over a batch of two messages. -/
theorem receivers_bounded_by_lines_witness :
    ([⟨3, true, true, "Ea", 1000000000⟩, ⟨3, true, false, "Ub", 2000000000⟩] :
      List (Message String)).length
      = (readReceiversFromFile ((Sample.lib (Sample.scenario ["Ea,1", "Ub , 2"] [])).file
          "receiver.txt")).1.length :=
  (receivers_bounded_by_lines (Sample.lib (Sample.scenario ["Ea,1", "Ub , 2"] []))
    ⟨[5000000000]⟩).2.2 _ (by decide)

/-- C4, as amended (the threshold, not the total): after a successful setup the
sender hands a batch to `SendManyWaitTxHash` only if the balance read just
before, as a `uint64`, is at least 3,000,000 nanoTON, and for every balance
below 3,000,000 nanoTON and every recipient list no batch is handed over. -/
theorem send_only_above_threshold {σ A W B : Type} (L : TonLib σ A W B) (s0 : σ)
    (words : List String) (w : W) (block : B) (balance : Int) (receivers : GoMap) (s3 : σ)
    (h : SetupOk L s0 words w block balance receivers s3) :
    (batchesOf (main L s0).trace ≠ [] → 3000000 ≤ Uint64 balance)
    ∧ (Uint64 balance < 3000000 → batchesOf (main L s0).trace = []) := by
  have h2 : Uint64 balance < 3000000 → batchesOf (main L s0).trace = [] :=
    fun hb => batches_nil_of_below L s0 words w block balance receivers s3 h hb
  refine ⟨fun hne => ?_, h2⟩
  by_contra hlt
  exact hne (h2 (by omega))

/-- The sample sender with 2,999,999 nanoTON hands over no batch. -/
theorem send_only_above_threshold_witness :
    batchesOf (main (Sample.lib (Sample.scenario ["Ea,1"] [])) ⟨[2999999]⟩).trace = [] :=
  (send_only_above_threshold (Sample.lib (Sample.scenario ["Ea,1"] [])) ⟨[2999999]⟩
    ["abandon", "ability", "able"] () 0 2999999 _ ⟨[2999999]⟩
    (Sample.setupOk ["Ea,1"] [] 2999999)).2 (by decide)

/-- With a balance of 3,000,000 nanoTON and one recipient of 1 TON the sample
sender hands over a batch whose total, 1,000,000,000 nanoTON, exceeds the
balance. -/
theorem send_exceeding_balance :
    SetupOk (Sample.lib (Sample.scenario ["Ea,1"] [])) ⟨[3000000]⟩
      ["abandon", "ability", "able"] () 0 3000000 [("Ea", "1")] ⟨[3000000]⟩
    ∧ batchesOf (main (Sample.lib (Sample.scenario ["Ea,1"] [])) ⟨[3000000]⟩).trace
      = [[⟨3, true, true, "Ea", 1000000000⟩]]
    ∧ ¬ (([⟨3, true, true, "Ea", 1000000000⟩] : List (Message String)).map
        Message.Amount).sum ≤ 3000000 :=
  ⟨Sample.setupOk ["Ea,1"] [] 3000000, by decide, by decide⟩

/-- C5 (the code reads the new balance at the old block): the sample sender with
5 TON sends 1 TON; its two `GetBalance` calls carry the same block 0, fetched
before the send, and the entry `new_balance` shows the pre-send 5,000,000,000
nanoTON although the chain's newest block holds 4,000,000,000. -/
theorem new_balance_read_at_presend_block :
    callsOf (main (Sample.lib (Sample.scenario ["Ea,1"] [])) ⟨[5000000000]⟩).trace
      = [.AddConnectionsFromConfigUrl configUrl, .readPhraseFromFile "phrase.txt",
          .FromSeed ["abandon", "ability", "able"], .CurrentMasterchainInfo, .GetBalance 0,
          .readReceiversFromFile "receiver.txt",
          .SendManyWaitTxHash [⟨3, true, true, "Ea", 1000000000⟩], .GetBalance 0]
    ∧ (logsOf (main (Sample.lib (Sample.scenario ["Ea,1"] [])) ⟨[5000000000]⟩).trace).getLast?
      = some ⟨.info, [.str "new_balance" (.coinsString 5000000000)],
          "New balance of sender's wallet after transactions", []⟩
    ∧ (main (Sample.lib (Sample.scenario ["Ea,1"] [])) ⟨[5000000000]⟩).state
      = ⟨[5000000000, 4000000000]⟩
    ∧ (main (Sample.lib (Sample.scenario ["Ea,1"] [])) ⟨[5000000000]⟩).outcome = .returned := by
  refine ⟨by decide, by decide, by decide, by decide⟩

/-- C8, as amended (the `uint64` of the balance, and recipients that parse):
after a successful setup the sender hands over a batch exactly when the balance
converted to `uint64` (the balance itself when it is below 2^64) is at least
3,000,000 nanoTON and every recipient entry parses; it never hands over more
than one; and when the converted balance is below 3,000,000 the run is the
setup followed by the `Not enough balance` warning alone. -/
theorem send_iff_threshold {σ A W B : Type} (L : TonLib σ A W B) (s0 : σ)
    (words : List String) (w : W) (block : B) (balance : Int) (receivers : GoMap) (s3 : σ)
    (h : SetupOk L s0 words w block balance receivers s3) :
    ((∃ msgs, batchesOf (main L s0).trace = [msgs])
        ↔ (3000000 ≤ Uint64 balance ∧ ∀ e ∈ receivers, Parses L e))
    ∧ (batchesOf (main L s0).trace = [] ∨ ∃ msgs, batchesOf (main L s0).trace = [msgs])
    ∧ (0 ≤ balance → balance < 2 ^ 64 → (3000000 ≤ Uint64 balance ↔ 3000000 ≤ balance))
    ∧ (Uint64 balance < 3000000 →
        main L s0 = ⟨setupTrace L words w block balance
          ++ [.log ⟨.warn, [.str "balance" (.coinsString balance)], "Not enough balance", []⟩],
          .returned, s3⟩) := by
  refine ⟨⟨?_, ?_⟩, ?_, ?_, fun hb => main_below L s0 words w block balance receivers s3 h hb⟩
  · rintro ⟨msgs, hmsgs⟩
    have hb : 3000000 ≤ Uint64 balance := by
      by_contra hlt
      rw [batches_nil_of_below L s0 words w block balance receivers s3 h (by omega)] at hmsgs
      cases hmsgs
    refine ⟨hb, ?_⟩
    by_contra hbad
    have hbad' : ∃ e ∈ receivers, ¬ Parses L e := by
      by_contra hno
      apply hbad
      intro e he
      by_contra hp
      exact hno ⟨e, he, hp⟩
    obtain ⟨err, he⟩ := build_error_of_bad L receivers hbad'
    rw [batches_nil_of_panic L s0 words w block balance receivers s3 err h hb he] at hmsgs
    cases hmsgs
  · rintro ⟨hb, hp⟩
    obtain ⟨msgs, hm⟩ := buildMessages_of_parses L (L.rangeOrder receivers) []
      (fun e he => hp e ((L.rangeOrder_perm receivers).mem_iff.mp he))
    exact ⟨msgs, batches_of_built L s0 words w block balance receivers s3 msgs h hb hm⟩
  · rcases batches_nil_or_built L s0 with h0 | ⟨msgs, _, _, _, _, _, _, _, _, _, hm⟩
    · exact Or.inl h0
    · exact Or.inr ⟨msgs, hm⟩
  · intro h0 h64
    obtain ⟨n, rfl⟩ := Int.eq_ofNat_of_zero_le h0
    have hn : n < 2 ^ 64 := by exact_mod_cast h64
    simp only [Uint64, Int.natAbs_ofNat, Nat.mod_eq_of_lt hn]
    omega

/-- The sample sender with 5 TON and one recipient hands over its batch. -/
theorem send_iff_threshold_witness :
    ∃ msgs, batchesOf (main (Sample.lib (Sample.scenario ["Ea,1"] [])) ⟨[5000000000]⟩).trace
      = [msgs] :=
  (send_iff_threshold (Sample.lib (Sample.scenario ["Ea,1"] [])) ⟨[5000000000]⟩
    ["abandon", "ability", "able"] () 0 5000000000 _ ⟨[5000000000]⟩
    (Sample.setupOk ["Ea,1"] [] 5000000000)).1.mpr
    ⟨by decide, fun e he => by
      have he' : e = ("Ea", "1") := List.mem_singleton.mp he
      subst he'
      exact ⟨⟨"Ea", rfl⟩, ⟨1000000000, rfl⟩⟩⟩

/-- With a balance of 2^64 nanoTON, which is above 3,000,000, and one
well-formed recipient, the sample sender passes the setup, hands over no batch
and ends with the `Not enough balance` warning; and with 5 TON and a recipient
whose address does not parse it passes the setup and hands over no batch
either, ending in a panic. -/
theorem threshold_not_sufficient :
    SetupOk (Sample.lib (Sample.scenario ["Ea,1"] [])) ⟨[18446744073709551616]⟩
      ["abandon", "ability", "able"] () 0 18446744073709551616 [("Ea", "1")]
      ⟨[18446744073709551616]⟩
    ∧ (3000000 : Int) ≤ 18446744073709551616
    ∧ batchesOf (main (Sample.lib (Sample.scenario ["Ea,1"] []))
        ⟨[18446744073709551616]⟩).trace = []
    ∧ (logsOf (main (Sample.lib (Sample.scenario ["Ea,1"] []))
        ⟨[18446744073709551616]⟩).trace).getLast?
      = some ⟨.warn, [.str "balance" (.coinsString 18446744073709551616)],
          "Not enough balance", []⟩
    ∧ SetupOk (Sample.lib (Sample.scenario ["bad,1"] [])) ⟨[5000000000]⟩
      ["abandon", "ability", "able"] () 0 5000000000 [("bad", "1")] ⟨[5000000000]⟩
    ∧ batchesOf (main (Sample.lib (Sample.scenario ["bad,1"] [])) ⟨[5000000000]⟩).trace = []
    ∧ (main (Sample.lib (Sample.scenario ["bad,1"] [])) ⟨[5000000000]⟩).outcome
      = .panicked "invalid address" :=
  ⟨Sample.setupOk ["Ea,1"] [] 18446744073709551616, by decide, by decide, by decide,
    Sample.setupOk ["bad,1"] [] 5000000000, by decide, by decide⟩

/-- C9 (batch construction): after a successful setup with the balance check
passed, the sender hands over at most one batch, and does hand one over when
every recipient entry parses; that batch has one message per entry of the
receivers map (whose keys are distinct), in the order the range visits the
entries, each with mode `PayGasSeparately + IgnoreErrors`, `IHRDisabled` set,
the parsed address of its entry as destination, that address's bounceable flag
as bounce flag and the parsed amount of the same entry; and after a successful
send the trace holds, after the hash entry, one transfer entry per message with
its destination and amount, then the second balance read. -/
theorem batch_construction {σ A W B : Type} (L : TonLib σ A W B) (s0 : σ)
    (words : List String) (w : W) (block : B) (balance : Int) (receivers : GoMap) (s3 : σ)
    (h : SetupOk L s0 words w block balance receivers s3) (hb : 3000000 ≤ Uint64 balance) :
    (receivers.map Prod.fst).Nodup
    ∧ (L.rangeOrder receivers).Perm receivers
    ∧ (batchesOf (main L s0).trace = [] ∨ ∃ msgs, batchesOf (main L s0).trace = [msgs])
    ∧ ((∀ e ∈ receivers, Parses L e) → ∃ msgs, batchesOf (main L s0).trace = [msgs])
    ∧ (∀ msgs ∈ batchesOf (main L s0).trace,
        msgs.length = receivers.length
        ∧ List.Forall₂ (fun e m => ∃ addr amount,
            L.ParseAddr e.1 = .ok addr ∧ L.FromTON e.2 = .ok amount
            ∧ m.Mode = PayGasSeparately + IgnoreErrors ∧ m.IHRDisabled = true
            ∧ m.DstAddr = addr ∧ m.Bounce = L.IsBounceable addr ∧ m.Amount = amount)
          (L.rangeOrder receivers) msgs
        ∧ ∀ txHash s4, L.SendManyWaitTxHash w msgs s3 = (.ok txHash, s4) →
            ∃ last, (main L s0).trace = setupTrace L words w block balance
              ++ [.log ⟨.info, [], "Sending transaction and waiting for confirmation...", []⟩,
                  .call (.SendManyWaitTxHash msgs),
                  .log ⟨.info, [.str "hash" (.base64Std txHash),
                    .str "explorer_link" (.urlPrefixed "https://tonscan.org/tx/" txHash)],
                    "Transaction sent", []⟩]
              ++ msgs.map (fun m => .log ⟨.info, [.str "address" (.addrString m.DstAddr),
                    .str "amount" (.coinsString m.Amount)], "Transaction sent", []⟩)
              ++ [.call (.GetBalance block), last]) := by
  have hnodup : (receivers.map Prod.fst).Nodup := by
    obtain ⟨_, _, _, _, _, _, _, h6⟩ := h
    exact receivers_file_nodup _ receivers h6
  refine ⟨hnodup, L.rangeOrder_perm receivers, ?_, ?_, ?_⟩
  · rcases batches_nil_or_built L s0 with h0 | ⟨msgs, _, _, _, _, _, _, _, _, _, hm⟩
    · exact Or.inl h0
    · exact Or.inr ⟨msgs, hm⟩
  · intro hp
    obtain ⟨msgs, hm⟩ := buildMessages_of_parses L (L.rangeOrder receivers) []
      (fun e he => hp e ((L.rangeOrder_perm receivers).mem_iff.mp he))
    exact ⟨msgs, batches_of_built L s0 words w block balance receivers s3 msgs h hb hm⟩
  · intro msgs hmem
    cases hm : buildMessages L (L.rangeOrder receivers) [] with
    | error err =>
      rw [batches_nil_of_panic L s0 words w block balance receivers s3 err h hb hm] at hmem
      simp at hmem
    | ok built =>
      rw [batches_of_built L s0 words w block balance receivers s3 built h hb hm] at hmem
      have hmsgs : msgs = built := List.mem_singleton.mp hmem
      subst hmsgs
      obtain ⟨ms, hms, hf⟩ := buildMessages_ok L _ [] msgs hm
      simp only [List.nil_append] at hms
      subst hms
      refine ⟨?_, ?_, ?_⟩
      · rw [← hf.length_eq]
        exact (L.rangeOrder_perm receivers).length_eq
      · refine hf.imp ?_
        rintro e m ⟨addr, amount, ha, hm', rfl⟩
        exact ⟨addr, amount, ha, hm', rfl, rfl, rfl, rfl, rfl⟩
      · intro txHash s4 hs
        rw [main_sent L s0 words w block balance receivers s3 s4 txHash msgs h hb hm hs]
        split
        · next err s5 _ =>
          refine ⟨.log ⟨.error, [.err err], "Failed to get new balance after transactions",
            []⟩, ?_⟩
          simp only [sendTrace, List.append_assoc, List.singleton_append, List.cons_append,
            List.nil_append]
          rfl
        · next newBalance s5 _ =>
          refine ⟨.log ⟨.info, [.str "new_balance" (.coinsString newBalance)],
            "New balance of sender's wallet after transactions", []⟩, ?_⟩
          simp only [sendTrace, List.append_assoc, List.singleton_append, List.cons_append,
            List.nil_append]
          rfl

/-- The sample sender with 5 TON and two recipients that parse hands over a batch. -/
theorem batch_construction_witness :
    ∃ msgs, batchesOf (main (Sample.lib (Sample.scenario ["Ea,1", "Ub , 2"] []))
      ⟨[5000000000]⟩).trace = [msgs] :=
  (batch_construction (Sample.lib (Sample.scenario ["Ea,1", "Ub , 2"] [])) ⟨[5000000000]⟩
    ["abandon", "ability", "able"] () 0 5000000000 _ ⟨[5000000000]⟩
    (Sample.setupOk ["Ea,1", "Ub , 2"] [] 5000000000) (by decide)).2.2.2.1
    (fun e he => by
      have he' : e = ("Ea", "1") ∨ e = ("Ub", "2") := by
        rcases List.mem_cons.mp he with h1 | h1
        · exact Or.inl h1
        · exact Or.inr (List.mem_singleton.mp h1)
      rcases he' with rfl | rfl
      · exact ⟨⟨"Ea", rfl⟩, ⟨1000000000, rfl⟩⟩
      · exact ⟨⟨"Ub", rfl⟩, ⟨2000000000, rfl⟩⟩)

/-- C10, as amended (the panic only once the balance check passed): when
`receiver.txt` gives a map with an entry whose address or whose amount does not
parse, no run of the sender hands a batch to `SendManyWaitTxHash`; a run that
passed the setup and the balance check ends in the panic of `MustParseAddr` or
`MustFromTON` right after the setup events, while the messages are built; and a
run that passed the setup with a balance below the threshold builds nothing and
returns after the `Not enough balance` warning. -/
theorem no_partial_batch {σ A W B : Type} (L : TonLib σ A W B) (s0 : σ) (receivers : GoMap)
    (hr : readReceiversFromFile (L.file "receiver.txt") = (receivers, none))
    (hbad : ∃ e ∈ receivers,
      (∃ err, L.ParseAddr e.1 = .error err) ∨ (∃ err, L.FromTON e.2 = .error err)) :
    batchesOf (main L s0).trace = []
    ∧ (∀ words w block balance s3, SetupOk L s0 words w block balance receivers s3 →
        3000000 ≤ Uint64 balance →
        ∃ err, main L s0 = ⟨setupTrace L words w block balance, .panicked err, s3⟩)
    ∧ (∀ words w block balance s3, SetupOk L s0 words w block balance receivers s3 →
        Uint64 balance < 3000000 →
        main L s0 = ⟨setupTrace L words w block balance
          ++ [.log ⟨.warn, [.str "balance" (.coinsString balance)], "Not enough balance", []⟩],
          .returned, s3⟩) := by
  have hbad' : ∃ e ∈ receivers, ¬ Parses L e := by
    obtain ⟨e, he, hp⟩ := hbad
    refine ⟨e, he, ?_⟩
    rintro ⟨⟨addr, ha⟩, ⟨amount, hm⟩⟩
    rcases hp with ⟨err, h1⟩ | ⟨err, h1⟩
    · rw [ha] at h1; cases h1
    · rw [hm] at h1; cases h1
  obtain ⟨err, he⟩ := build_error_of_bad L receivers hbad'
  refine ⟨?_, ?_, fun words w block balance s3 hs hb =>
    main_below L s0 words w block balance receivers s3 hs hb⟩
  · rcases batches_nil_or_built L s0 with h0 | ⟨msgs, _, _, _, _, receivers', _, hs, _, hm, _⟩
    · exact h0
    · obtain ⟨_, _, _, _, _, _, _, h6⟩ := hs
      rw [hr] at h6
      simp only [Prod.mk.injEq, and_true] at h6
      subst h6
      rw [he] at hm
      cases hm
  · intro words w block balance s3 hs hb
    exact ⟨err, main_panic L s0 words w block balance receivers s3 err hs hb he⟩

/-- The sample sender with 5 TON, one well-formed recipient and one whose
address does not parse hands over no batch. -/
theorem no_partial_batch_witness :
    batchesOf (main (Sample.lib (Sample.scenario ["Ea,1", "bad,1"] [])) ⟨[5000000000]⟩).trace
      = [] :=
  (no_partial_batch (Sample.lib (Sample.scenario ["Ea,1", "bad,1"] [])) ⟨[5000000000]⟩
    [("Ea", "1"), ("bad", "1")] rfl
    ⟨("bad", "1"), by decide, Or.inl ⟨"invalid address", rfl⟩⟩).1

/-- With 2,999,999 nanoTON, one well-formed recipient and one whose address does
not parse, the sample sender passes the setup and does not terminate while
building the messages: it builds none, logs `Not enough balance` and returns. -/
theorem malformed_recipient_below_threshold :
    SetupOk (Sample.lib (Sample.scenario ["Ea,1", "bad,1"] [])) ⟨[2999999]⟩
      ["abandon", "ability", "able"] () 0 2999999 [("Ea", "1"), ("bad", "1")] ⟨[2999999]⟩
    ∧ (Sample.lib (Sample.scenario ["Ea,1", "bad,1"] [])).ParseAddr "bad"
      = .error "invalid address"
    ∧ (main (Sample.lib (Sample.scenario ["Ea,1", "bad,1"] [])) ⟨[2999999]⟩).outcome
      = .returned
    ∧ (logsOf (main (Sample.lib (Sample.scenario ["Ea,1", "bad,1"] []))
        ⟨[2999999]⟩).trace).getLast?
      = some ⟨.warn, [.str "balance" (.coinsString 2999999)], "Not enough balance", []⟩ :=
  ⟨Sample.setupOk ["Ea,1", "bad,1"] [] 2999999, rfl, by decide, by decide⟩

end TonWalletManager
